import Mathlib

/-!
# Authorization core of go-invoices (package `gate`)

A shallow embedding of `go-gate/permission.go`, `profile.go`, `policy.go`,
`errors.go`, `gate.go`, `hybrid_gate.go` and `cached_resolver.go`, of the
application's `auth/auth.go`, `internal/policy` (ownership policies, the
database-backed profile, the `AuthGate` adapters) and `models.Client`, and of
`ComputeTotals` of billing-app, followed by theorems about the embedded
functions.

Modelling conventions

* A Go `string` is modelled by `String`.  A Go string is a byte sequence; the
  only bytes the code inspects are `':'` and `'*'`, which are single bytes in
  UTF-8 and never part of a multi-byte sequence, so splitting and comparing on
  characters agrees with splitting and comparing on bytes.
* `Permission` and `Action` are Go named string types; they are abbreviations
  of `String` here, so the conversions `Permission(..)`, `string(..)` and
  `Action(..)` are the identity.
* An interface value is a record of its methods; a `nil` interface is `none`.
* `error` is `Option GoError`, `nil` being `none`.
* Code that has side effects (a resolver, the clock) is a function that takes
  the state and returns the new state next to its result.
-/

namespace GoGate

/-! ## permission.go -/

/-- Type `Action` of `action.go`: a named string type. -/
abbrev Action := String

/-- Type `Permission` of `permission.go`: a named string type. -/
abbrev Permission := String

/-- Splits a character sequence at the first occurrence of `sep`:
`none` when `sep` does not occur. -/
def cutFirst (sep : Char) : List Char → Option (List Char × List Char)
  | [] => none
  | c :: cs =>
    if c = sep then some ([], cs)
    else match cutFirst sep cs with
      | none => none
      | some (before, after) => some (c :: before, after)

/-- Go `strings.SplitN(s, sep, 2)` for a one-character separator: the
one-element slice `[s]` when `sep` does not occur in `s` (also for the empty
`s`), otherwise the text before the first `sep` and the text after it. -/
def SplitN2 (s : String) (sep : Char) : List String :=
  match cutFirst sep s.data with
  | none => [s]
  | some (before, after) => [String.mk before, String.mk after]

/-- Function `NewPermission`: `resourceType + ":" + string(action)`. -/
def NewPermission (resourceType : String) (action : Action) : Permission :=
  resourceType ++ ":" ++ action

/-- Method `Permission.Parse`: the two parts around the first `':'`, or two
empty strings when `SplitN` does not return two parts. -/
def Permission.Parse (p : Permission) : String × Action :=
  match SplitN2 p ':' with
  | [resourceType, action] => (resourceType, action)
  | _ => ("", "")

/-- Constant `WildcardAll`. -/
def WildcardAll : String := "*"

/-- Constant `PermissionSuperAdmin`. -/
def PermissionSuperAdmin : Permission := "*:*"

/-- Method `Permission.Matches`, with `p` the granted permission. -/
def Permission.Matches (p requested : Permission) : Bool :=
  if p = PermissionSuperAdmin then true
  else if p = requested then true
  else
    match Permission.Parse p, Permission.Parse requested with
    | (res, act), (reqRes, _) =>
      if res = reqRes ∧ act = WildcardAll then true
      else false

/-! ## profile.go -/

/-- Interface `Profile`: a record of its four methods.  `uint` is `Nat`. -/
structure Profile where
  ID : Nat
  Name : String
  HasPermission : Permission → Bool
  Permissions : List Permission

/-- Struct `StaticProfile`.  The field `permissions` is a Go
`map[Permission]bool` in which every stored value is `true` and only the keys
are ever read; it is modelled by the list of its keys, without repetition. -/
structure StaticProfile where
  id : Nat
  name : String
  permissions : List Permission

/-- The map assignment `m[perm] = true` on the key list: a key that is already
present stays where it is, a new key is added. -/
def mapSetTrue (m : List Permission) (perm : Permission) : List Permission :=
  if perm ∈ m then m else m ++ [perm]

/-- Function `NewStaticProfile`: starts from the empty map and assigns
`p.permissions[perm] = true` for each of the variadic `permissions` in turn. -/
def NewStaticProfile (id : Nat) (name : String) (permissions : List Permission) :
    StaticProfile :=
  ⟨id, name, permissions.foldl mapSetTrue []⟩

/-- The loop `for perm := range keys { if perm.Matches(requested) { return true } }
return false` of `StaticProfile.HasPermission`, run over the keys in the order
`keys`. -/
def rangeMatches : List Permission → Permission → Bool
  | [], _ => false
  | perm :: rest, requested =>
    if Permission.Matches perm requested then true else rangeMatches rest requested

/-- Method `StaticProfile.HasPermission`.  Go leaves the iteration order of
`range` over a map unspecified; here the loop runs in the order of the key
list, and `rangeMatches_perm` below shows that every other order gives the
same result. -/
def StaticProfile.HasPermission (p : StaticProfile) (requested : Permission) : Bool :=
  rangeMatches p.permissions requested

/-- Method `StaticProfile.Permissions`: the keys of the map. -/
def StaticProfile.Permissions (p : StaticProfile) : List Permission :=
  p.permissions

/-- A `*StaticProfile` used as a `Profile` interface value. -/
def StaticProfile.toProfile (p : StaticProfile) : Profile :=
  ⟨p.id, p.name, p.HasPermission, p.Permissions⟩

/-! ## errors.go -/

/-- A non-nil Go `error` value: one of the two sentinels of `errors.go`, or any
other error, told apart by an identifying text. -/
inductive GoError where
  | ErrUnauthorized
  | ErrNoPolicyDefined
  | other (msg : String)
  deriving DecidableEq

open GoError (ErrUnauthorized ErrNoPolicyDefined)

/-- Interface `ProfileResolver[U]`.  `Resolve` may have side effects (the
cached resolver writes its cache), so it takes the state `σ` it runs in and
returns the state it leaves.  A Go call returns the pair `(Profile, error)`,
in which either component may be nil independently of the other. -/
structure ProfileResolver (σ Ctx U : Type) where
  Resolve : σ → Ctx → U → (Option Profile × Option GoError) × σ

/-! ## policy.go -/

/-- Interface `Policy[U]`.  The `resource any` argument may be nil: it is an
`Option R`, with `R` the type of the non-nil resources. -/
structure Policy (Ctx U R : Type) where
  Can : Ctx → U → Action → Option R → Bool

/-! ## gate.go -/

/-- Struct `Gate[U]`.  The map `policies` is the function that looks a key up:
`none` is the `ok == false` of `p, ok := g.policies[resourceType]`. -/
structure Gate (Ctx U R : Type) where
  policies : String → Option (Policy Ctx U R)

/-- Function `NewGate`: no policy registered. -/
def NewGate (Ctx U R : Type) : Gate Ctx U R :=
  ⟨fun _ => none⟩

/-- Method `Gate.Register`: `g.policies[resourceType] = p`. -/
def Gate.Register {Ctx U R : Type} (g : Gate Ctx U R) (resourceType : String)
    (p : Policy Ctx U R) : Gate Ctx U R :=
  ⟨fun t => if t = resourceType then some p else g.policies t⟩

/-- Method `Gate.Authorize`.  The zero value of `U` is `0`. -/
def Gate.Authorize {Ctx U R : Type} [DecidableEq U] [Zero U] (g : Gate Ctx U R)
    (ctx : Ctx) (user : U) (action : Action) (resourceType : String)
    (resource : Option R) : Option GoError :=
  if user = 0 then some ErrUnauthorized
  else
    match g.policies resourceType with
    | none => some ErrNoPolicyDefined
    | some p =>
      if !p.Can ctx user action resource then some ErrUnauthorized
      else none

/-- Method `Gate.Can`: `g.Authorize(..) == nil`. -/
def Gate.Can {Ctx U R : Type} [DecidableEq U] [Zero U] (g : Gate Ctx U R)
    (ctx : Ctx) (user : U) (action : Action) (resourceType : String)
    (resource : Option R) : Bool :=
  (g.Authorize ctx user action resourceType resource).isNone

/-! ## hybrid_gate.go -/

/-- Struct `HybridGate[U]`. -/
structure HybridGate (σ Ctx U R : Type) where
  resolver : ProfileResolver σ Ctx U
  policies : String → Option (Policy Ctx U R)

/-- Function `NewHybridGate`. -/
def NewHybridGate {σ Ctx U : Type} (R : Type) (resolver : ProfileResolver σ Ctx U) :
    HybridGate σ Ctx U R :=
  ⟨resolver, fun _ => none⟩

/-- Method `HybridGate.Register`. -/
def HybridGate.Register {σ Ctx U R : Type} (g : HybridGate σ Ctx U R)
    (resourceType : String) (p : Policy Ctx U R) : HybridGate σ Ctx U R :=
  ⟨g.resolver, fun t => if t = resourceType then some p else g.policies t⟩

/-- Method `HybridGate.Authorize`, run in the resolver state `s`; the second
component is the state the resolver leaves.  The match on `err, profile`
is the test `err != nil || profile == nil`: only a nil error with a non-nil
profile goes on. -/
def HybridGate.Authorize {σ Ctx U R : Type} [DecidableEq U] [Zero U]
    (g : HybridGate σ Ctx U R) (s : σ) (ctx : Ctx) (user : U) (action : Action)
    (resourceType : String) (resource : Option R) : Option GoError × σ :=
  if user = 0 then (some ErrUnauthorized, s)
  else
    match g.resolver.Resolve s ctx user with
    | ((profile, err), s') =>
      match err, profile with
      | none, some prof =>
        if !prof.HasPermission (NewPermission resourceType action) then
          (some ErrUnauthorized, s')
        else
          match resource with
          | none => (none, s')
          | some res =>
            match g.policies resourceType with
            | none => (none, s')
            | some policy =>
              if !policy.Can ctx user action (some res) then (some ErrUnauthorized, s')
              else (none, s')
      | _, _ => (some ErrUnauthorized, s')

/-- Method `HybridGate.Can`. -/
def HybridGate.Can {σ Ctx U R : Type} [DecidableEq U] [Zero U]
    (g : HybridGate σ Ctx U R) (s : σ) (ctx : Ctx) (user : U) (action : Action)
    (resourceType : String) (resource : Option R) : Bool × σ :=
  match g.Authorize s ctx user action resourceType resource with
  | (err, s') => (err.isNone, s')

/-- Method `HybridGate.CanProfile`. -/
def HybridGate.CanProfile {σ Ctx U R : Type} [DecidableEq U] [Zero U]
    (g : HybridGate σ Ctx U R) (s : σ) (ctx : Ctx) (user : U) (action : Action)
    (resourceType : String) : Bool × σ :=
  if user = 0 then (false, s)
  else
    match g.resolver.Resolve s ctx user with
    | ((profile, err), s') =>
      match err, profile with
      | none, some prof => (prof.HasPermission (NewPermission resourceType action), s')
      | _, _ => (false, s')

/-! ## cached_resolver.go -/

/-- A `time.Time`: an instant, counted in nanoseconds on the time line.  The
bounded range of Go's representation is not modelled. -/
abbrev Time := Int

/-- A `time.Duration`: a signed count of nanoseconds. -/
abbrev Duration := Int

/-- Struct `cacheEntry`.  The cached `profile` may be a nil interface. -/
structure cacheEntry where
  profile : Option Profile
  expiresAt : Time

/-- Struct `CachedResolver[U]`.  The map `cache` is its lookup function.  The
field `mu` is left out: the embedding runs one call at a time. -/
structure CachedResolver (σ Ctx U : Type) where
  inner : ProfileResolver σ Ctx U
  cache : U → Option cacheEntry
  ttl : Duration

/-- What a call of `CachedResolver.Resolve` acts on besides the resolver
itself: the clock, given by the readings that the successive calls of
`time.Now()` return; the state of the inner resolver; and, as a record that is
not in the source, the subjects with which `inner.Resolve` has been called so
far. -/
structure World (σ U : Type) where
  clock : Nat → Time
  innerState : σ
  innerCalls : List U

/-- A call of `time.Now()`: the next reading of the clock. -/
def World.Now {σ U : Type} (w : World σ U) : Time × World σ U :=
  (w.clock 0, ⟨fun n => w.clock (n + 1), w.innerState, w.innerCalls⟩)

/-- Function `NewCachedResolver`: an empty cache. -/
def NewCachedResolver {σ Ctx U : Type} (inner : ProfileResolver σ Ctx U)
    (ttl : Duration) : CachedResolver σ Ctx U :=
  ⟨inner, fun _ => none, ttl⟩

/-- The call `r.inner.Resolve(ctx, user)`: runs the inner resolver in its
state and records the call. -/
def CachedResolver.callInner {σ Ctx U : Type} (r : CachedResolver σ Ctx U)
    (w : World σ U) (ctx : Ctx) (user : U) :
    (Option Profile × Option GoError) × World σ U :=
  match r.inner.Resolve w.innerState ctx user with
  | (res, s') => (res, ⟨w.clock, s', w.innerCalls ++ [user]⟩)

/-- The second half of `CachedResolver.Resolve` (lines 44 to 58): fetch from the
inner resolver; on an error return `nil, err`; otherwise store
`&cacheEntry{profile, time.Now().Add(r.ttl)}` under `user` and return the
profile. -/
def CachedResolver.fetch {σ Ctx U : Type} [DecidableEq U] (r : CachedResolver σ Ctx U)
    (w : World σ U) (ctx : Ctx) (user : U) :
    (Option Profile × Option GoError) × CachedResolver σ Ctx U × World σ U :=
  match r.callInner w ctx user with
  | ((profile, err), w1) =>
    match err with
    | some e => ((none, some e), r, w1)
    | none =>
      match w1.Now with
      | (now, w2) =>
        ((profile, none),
          ⟨r.inner, fun u => if u = user then some ⟨profile, now + r.ttl⟩ else r.cache u,
            r.ttl⟩,
          w2)

/-- Method `CachedResolver.Resolve`.  In `ok && time.Now().Before(entry.expiresAt)`
the clock is read only when an entry was found; `Before` is `<`. -/
def CachedResolver.Resolve {σ Ctx U : Type} [DecidableEq U] (r : CachedResolver σ Ctx U)
    (w : World σ U) (ctx : Ctx) (user : U) :
    (Option Profile × Option GoError) × CachedResolver σ Ctx U × World σ U :=
  match r.cache user with
  | some entry =>
    match w.Now with
    | (now, w1) =>
      if now < entry.expiresAt then ((entry.profile, none), r, w1)
      else r.fetch w1 ctx user
  | none => r.fetch w ctx user

/-- Method `CachedResolver.Invalidate`: `delete(r.cache, user)`. -/
def CachedResolver.Invalidate {σ Ctx U : Type} [DecidableEq U]
    (r : CachedResolver σ Ctx U) (user : U) : CachedResolver σ Ctx U :=
  ⟨r.inner, fun u => if u = user then none else r.cache u, r.ttl⟩

/-- Method `CachedResolver.InvalidateAll`: a fresh empty map. -/
def CachedResolver.InvalidateAll {σ Ctx U : Type} (r : CachedResolver σ Ctx U) :
    CachedResolver σ Ctx U :=
  ⟨r.inner, fun _ => none, r.ttl⟩

/-- A `*CachedResolver` used as a `ProfileResolver`: its state is the resolver
record together with the world it runs in. -/
def CachedResolver.toResolver {σ Ctx U : Type} [DecidableEq U] :
    ProfileResolver (CachedResolver σ Ctx U × World σ U) Ctx U :=
  ⟨fun s ctx user => CachedResolver.Resolve s.1 s.2 ctx user⟩

/-- Struct `StaticResolver[U]`: the map `profiles` as its lookup function. -/
structure StaticResolver (U : Type) where
  profiles : U → Option (Option Profile)

/-- Function `NewStaticResolver`. -/
def NewStaticResolver (U : Type) : StaticResolver U :=
  ⟨fun _ => none⟩

/-- Method `StaticResolver.Set`: `r.profiles[user] = profile`. -/
def StaticResolver.Set {U : Type} [DecidableEq U] (r : StaticResolver U) (user : U)
    (profile : Option Profile) : StaticResolver U :=
  ⟨fun u => if u = user then some profile else r.profiles u⟩

/-- Method `StaticResolver.Resolve`: the stored profile with a nil error, or
`nil, nil` for an unknown user. -/
def StaticResolver.Resolve {U : Type} (r : StaticResolver U) (user : U) :
    Option Profile × Option GoError :=
  match r.profiles user with
  | some profile => (profile, none)
  | none => (none, none)

/-- A `*StaticResolver` used as a `ProfileResolver`: its state is the resolver
itself, which `Resolve` does not change. -/
def StaticResolver.toResolver {Ctx U : Type} : ProfileResolver (StaticResolver U) Ctx U :=
  ⟨fun r _ user => (r.Resolve user, r)⟩

/-! ## action.go -/

/-- Constant `ActionView`. -/
def ActionView : Action := "view"

/-- Constant `ActionCreate`. -/
def ActionCreate : Action := "create"

/-- Constant `ActionUpdate`. -/
def ActionUpdate : Action := "update"

/-- Constant `ActionDelete`. -/
def ActionDelete : Action := "delete"

/-- Constant `ActionList`. -/
def ActionList : Action := "list"

/-! ## Values of hybrid_gate_test.go and gate_test.go

The concrete resolvers, policies and gates that the package's tests build; the
theorems below are evaluated on them. -/

/-- Struct `mockResource` of `hybrid_gate_test.go`. -/
structure mockResource where
  OwnerID : Nat

/-- Type `mockOwnerPolicy` of `hybrid_gate_test.go`: the type assertion
`resource.(*mockResource)` fails on a nil resource. -/
def mockOwnerPolicy : Policy Unit Nat mockResource :=
  ⟨fun _ userID _ resource =>
    match resource with
    | some r => decide (r.OwnerID = userID)
    | none => false⟩

/-- The profile of `TestHybridGate_WithOwnershipPolicy`. -/
def editorProfile : StaticProfile :=
  NewStaticProfile 1 "editor"
    [NewPermission "product" ActionView, NewPermission "product" ActionUpdate]

/-- The resolver of `TestHybridGate_WithOwnershipPolicy`: users 1 and 2 have
the editor profile. -/
def editorResolver : StaticResolver Nat :=
  ((NewStaticResolver Nat).Set 1 (some editorProfile.toProfile)).Set 2
    (some editorProfile.toProfile)

/-- The gate of `TestHybridGate_WithOwnershipPolicy`. -/
def ownershipGate : HybridGate (StaticResolver Nat) Unit Nat mockResource :=
  (NewHybridGate mockResource StaticResolver.toResolver).Register "product" mockOwnerPolicy

/-- Type `mockPolicy` of `gate_test.go`: `Can` returns the field `allowAll`. -/
def mockPolicy (allowAll : Bool) : Policy Unit Nat mockResource :=
  ⟨fun _ _ _ _ => allowAll⟩

/-- A resolver whose lookup fails: it returns a nil profile and the error
`connection refused` for every user. -/
def failingResolver : ProfileResolver Unit Unit Nat :=
  ⟨fun s _ _ => ((none, some (GoError.other "connection refused")), s)⟩

/-- A hybrid gate over `failingResolver`, with no policy registered. -/
def failingGate : HybridGate Unit Unit Nat mockResource :=
  NewHybridGate mockResource failingResolver

/-! ## Values of cached_resolver_test.go -/

/-- The duration `5*time.Minute`, in nanoseconds. -/
def fiveMinutes : Duration := 300000000000

/-- The inner resolver of `TestCachedResolver_CachesProfile` at the start: user
1 has the profile named `editor`. -/
def innerEditor : StaticResolver Nat :=
  (NewStaticResolver Nat).Set 1 (some (NewStaticProfile 1 "editor" []).toProfile)

/-- The same inner resolver after `inner.Set(1, newProfile)`: user 1 has the
profile named `admin`. -/
def innerAdmin : StaticResolver Nat :=
  innerEditor.Set 1 (some (NewStaticProfile 1 "admin" []).toProfile)

/-- A world around the inner resolver `inner`: the clock reads 0, 1, 2, ...
nanoseconds and no call of the inner resolver has been recorded. -/
def testWorld (inner : StaticResolver Nat) : World (StaticResolver Nat) Nat :=
  ⟨fun n => (n : Int), inner, []⟩

/-- The cached resolver of `TestCachedResolver_CachesProfile` after its first
`Resolve(ctx, 1)`. -/
def warmResolver : CachedResolver (StaticResolver Nat) Unit Nat :=
  ((NewCachedResolver StaticResolver.toResolver fiveMinutes).Resolve
    (testWorld innerEditor) () 1).2.1

/-- The cached resolver of `TestCachedResolver_CachesProfile` before its first
`Resolve`. -/
def coldResolver : CachedResolver (StaticResolver Nat) Unit Nat :=
  NewCachedResolver StaticResolver.toResolver fiveMinutes

/-- The world of the second `Resolve(ctx, 1)` of that test: the inner resolver
now holds the `admin` profile, the clock reads 2, 3, ... nanoseconds, and the
one inner call of the first `Resolve` is on record. -/
def laterWorld : World (StaticResolver Nat) Nat :=
  ⟨fun n => (n : Int) + 2, innerAdmin, [1]⟩

/-! ## auth/auth.go -/

/-- A `context.Context`, as far as `UserIDFromContext` reads it: the value
stored under `userIDCtxKey`, or `none` when `ctx.Value` returns nil.  The key
has an unexported type and `WithUserID` is the only function that stores under
it, so a stored value is always a `uint`. -/
structure Context where
  userID : Option Nat

/-- Function `WithUserID`. -/
def WithUserID (_ctx : Context) (userID : Nat) : Context :=
  ⟨some userID⟩

/-- Function `UserIDFromContext`: `0, false` when no value is stored. -/
def UserIDFromContext (ctx : Context) : Nat × Bool :=
  match ctx.userID with
  | none => (0, false)
  | some id => (id, true)

/-! ## internal/policy/ownership.go -/

/-- Interface `Ownable`: a record of its method `GetUserID`. -/
structure Ownable where
  GetUserID : Nat

/-- The type assertion `resource.(Ownable)` on a non-nil resource of type `R`:
`none` is `ok == false`.  Go decides it on the dynamic type of the value; here
the resource type says which of its values implement `Ownable`. -/
class OwnableAssertion (R : Type) where
  asOwnable : R → Option Ownable

/-- Method `OwnershipPolicy.Can`; `OwnershipPolicy` is an empty struct. -/
def OwnershipPolicy.Can {Ctx R : Type} [OwnableAssertion R] (_ctx : Ctx) (userID : Nat)
    (_action : Action) (resource : Option R) : Bool :=
  match resource with
  | none => true
  | some res =>
    match OwnableAssertion.asOwnable res with
    | none => false
    | some ownable => decide (ownable.GetUserID = userID)

/-- Function `NewOwnershipPolicy`, as a `gate.Policy[uint]`. -/
def NewOwnershipPolicy (Ctx R : Type) [OwnableAssertion R] : Policy Ctx Nat R :=
  ⟨OwnershipPolicy.Can⟩

/-- Struct `AdminBypassPolicy`. -/
structure AdminBypassPolicy (Ctx R : Type) where
  inner : Policy Ctx Nat R
  isAdminFunc : Ctx → Nat → Bool

/-- Function `NewAdminBypassPolicy`. -/
def NewAdminBypassPolicy {Ctx R : Type} (inner : Policy Ctx Nat R)
    (isAdminFunc : Ctx → Nat → Bool) : AdminBypassPolicy Ctx R :=
  ⟨inner, isAdminFunc⟩

/-- Method `AdminBypassPolicy.Can`. -/
def AdminBypassPolicy.Can {Ctx R : Type} (p : AdminBypassPolicy Ctx R) (ctx : Ctx)
    (userID : Nat) (action : Action) (resource : Option R) : Bool :=
  if p.isAdminFunc ctx userID then true
  else p.inner.Can ctx userID action resource

/-- An `*AdminBypassPolicy` used as a `gate.Policy[uint]`. -/
def AdminBypassPolicy.toPolicy {Ctx R : Type} (p : AdminBypassPolicy Ctx R) :
    Policy Ctx Nat R :=
  ⟨p.Can⟩

/-! ## internal/policy/auth_gate.go -/

/-- Constant `http.StatusUnauthorized`. -/
def StatusUnauthorized : Nat := 401

/-- Constant `http.StatusForbidden`. -/
def StatusForbidden : Nat := 403

/-- What the handler built by a middleware does with a request: it answers
itself with `http.Error(w, msg, code)` and returns, or it calls
`next.ServeHTTP(w, r)`. -/
inductive Served where
  | httpError (msg : String) (code : Nat)
  | next
  deriving DecidableEq

/-- Struct `AuthGate`.  `CacheResolver` is the cached resolver that the pointer
of that name points to; it changes when a call writes the cache, so every
method that may do so returns the `AuthGate` it leaves.  The resolver of
`Gate` runs on that same cached resolver and on the world around it. -/
structure AuthGate (σ R : Type) where
  Gate : HybridGate (CachedResolver σ Context Nat × World σ Nat) Context Nat R
  CacheResolver : CachedResolver σ Context Nat

/-- Function `NewAuthGate`.  The database-backed resolver
`NewDBProfileResolver(db)` is the parameter `dbResolver`. -/
def NewAuthGate {σ : Type} (R : Type) (dbResolver : ProfileResolver σ Context Nat)
    (cacheTTL : Duration) : AuthGate σ R :=
  ⟨NewHybridGate R CachedResolver.toResolver, NewCachedResolver dbResolver cacheTTL⟩

/-- Method `AuthGate.RegisterPolicy`. -/
def AuthGate.RegisterPolicy {σ R : Type} (ag : AuthGate σ R) (resourceType : String)
    (p : Policy Context Nat R) : AuthGate σ R :=
  ⟨ag.Gate.Register resourceType p, ag.CacheResolver⟩

/-- Method `AuthGate.Authorize`. -/
def AuthGate.Authorize {σ R : Type} (ag : AuthGate σ R) (w : World σ Nat) (ctx : Context)
    (action : Action) (resourceType : String) (resource : Option R) :
    Option GoError × AuthGate σ R × World σ Nat :=
  match UserIDFromContext ctx with
  | (userID, ok) =>
    if !ok then (some ErrUnauthorized, ag, w)
    else
      match ag.Gate.Authorize (ag.CacheResolver, w) ctx userID action resourceType resource with
      | (err, (r', w')) => (err, ⟨ag.Gate, r'⟩, w')

/-- Method `AuthGate.Can`. -/
def AuthGate.Can {σ R : Type} (ag : AuthGate σ R) (w : World σ Nat) (ctx : Context)
    (action : Action) (resourceType : String) (resource : Option R) :
    Bool × AuthGate σ R × World σ Nat :=
  match ag.Authorize w ctx action resourceType resource with
  | (err, ag', w') => (err.isNone, ag', w')

/-- Method `AuthGate.CanProfile`. -/
def AuthGate.CanProfile {σ R : Type} (ag : AuthGate σ R) (w : World σ Nat) (ctx : Context)
    (action : Action) (resourceType : String) : Bool × AuthGate σ R × World σ Nat :=
  match UserIDFromContext ctx with
  | (userID, ok) =>
    if !ok then (false, ag, w)
    else
      match ag.Gate.CanProfile (ag.CacheResolver, w) ctx userID action resourceType with
      | (allowed, (r', w')) => (allowed, ⟨ag.Gate, r'⟩, w')

/-- Method `AuthGate.InvalidateUser`. -/
def AuthGate.InvalidateUser {σ R : Type} (ag : AuthGate σ R) (userID : Nat) : AuthGate σ R :=
  ⟨ag.Gate, ag.CacheResolver.Invalidate userID⟩

/-- Method `AuthGate.InvalidateAll`. -/
def AuthGate.InvalidateAll {σ R : Type} (ag : AuthGate σ R) : AuthGate σ R :=
  ⟨ag.Gate, ag.CacheResolver.InvalidateAll⟩

/-- The handler that `AuthGate.RequirePermission(resourceType, action)(next)`
returns, run on a request whose context is `ctx`. -/
def AuthGate.RequirePermission {σ R : Type} (ag : AuthGate σ R) (resourceType : String)
    (action : Action) (w : World σ Nat) (ctx : Context) :
    Served × AuthGate σ R × World σ Nat :=
  match ag.CanProfile w ctx action resourceType with
  | (allowed, ag', w') =>
    if !allowed then (Served.httpError "Forbidden" StatusForbidden, ag', w')
    else (Served.next, ag', w')

/-- The handler that `AuthGate.RequireAdmin()(next)` returns, run on a request
whose context is `ctx`.  The match on `err, profile` is the test
`err != nil || profile == nil`. -/
def AuthGate.RequireAdmin {σ R : Type} (ag : AuthGate σ R) (w : World σ Nat)
    (ctx : Context) : Served × AuthGate σ R × World σ Nat :=
  match UserIDFromContext ctx with
  | (userID, ok) =>
    if !ok then (Served.httpError "Unauthorized" StatusUnauthorized, ag, w)
    else
      match ag.CacheResolver.Resolve w ctx userID with
      | ((profile, err), r', w') =>
        match err, profile with
        | none, some prof =>
          if !prof.HasPermission PermissionSuperAdmin then
            (Served.httpError "Forbidden" StatusForbidden, ⟨ag.Gate, r'⟩, w')
          else (Served.next, ⟨ag.Gate, r'⟩, w')
        | _, _ => (Served.httpError "Forbidden" StatusForbidden, ⟨ag.Gate, r'⟩, w')

/-! ## Values of internal/policy/ownership_test.go -/

/-- The two resource types of `ownership_test.go`: `*mockOwnable`, which has the
method `GetUserID`, and `*mockNonOwnable`, which has not. -/
inductive testResource where
  | mockOwnable (userID : Nat)
  | mockNonOwnable (ID : Nat)

instance : OwnableAssertion testResource where
  asOwnable
    | testResource.mockOwnable userID => some ⟨userID⟩
    | testResource.mockNonOwnable _ => none

/-- The admin predicate of `TestAdminBypassPolicy_AdminAllowed`: user 1 is
admin. -/
def isAdminOne (_ctx : Context) (userID : Nat) : Bool :=
  decide (userID = 1)

/-- The policy of `TestAdminBypassPolicy_AdminAllowed`. -/
def bypassPolicy : AdminBypassPolicy Context testResource :=
  NewAdminBypassPolicy (NewOwnershipPolicy Context testResource) isAdminOne

/-! ## Values for the request-gating adapters -/

/-- A database in which the user with id 0 has a profile that grants `"*:*"`
and user 7 has a profile that grants `product:view`; every other lookup fails
with `record not found`. -/
def rootZeroResolver : ProfileResolver Unit Context Nat :=
  ⟨fun s _ userID =>
    if userID = 0 then
      ((some (NewStaticProfile 1 "admin" [PermissionSuperAdmin]).toProfile, none), s)
    else if userID = 7 then
      ((some (NewStaticProfile 2 "viewer" [NewPermission "product" ActionView]).toProfile,
        none), s)
    else ((none, some (GoError.other "record not found")), s)⟩

/-- An `AuthGate` over `rootZeroResolver` with a five-minute cache. -/
def rootZeroGate : AuthGate Unit testResource :=
  NewAuthGate testResource rootZeroResolver fiveMinutes

/-- A world for `rootZeroGate`: the clock reads 0, 1, 2, ... nanoseconds. -/
def unitWorld : World Unit Nat :=
  ⟨fun n => (n : Int), (), []⟩

/-! ## More values of cached_resolver_test.go -/

/-- A world long after the first `Resolve` of the tests: the clock reads ten
minutes and more, the inner resolver holds the `admin` profile for user 1, and
the one inner call made so far is on record. -/
def expiredWorld : World (StaticResolver Nat) Nat :=
  ⟨fun n => (n : Int) + 2 * fiveMinutes, innerAdmin, [1]⟩

/-- A cached resolver over `failingResolver`, with an empty cache. -/
def failingCached : CachedResolver Unit Unit Nat :=
  NewCachedResolver failingResolver fiveMinutes

/-- A world for `failingCached`: the clock reads 0, 1, 2, ... nanoseconds. -/
def failingWorld : World Unit Nat :=
  ⟨fun n => (n : Int), (), []⟩

/-- The inner resolver of `TestCachedResolver_InvalidateAll` at the start:
user 1 is `editor`, user 2 is `viewer`. -/
def innerTwo : StaticResolver Nat :=
  ((NewStaticResolver Nat).Set 1 (some (NewStaticProfile 1 "editor" []).toProfile)).Set 2
    (some (NewStaticProfile 2 "viewer" []).toProfile)

/-- The same inner resolver after both users were set to `admin`. -/
def innerTwoAdmin : StaticResolver Nat :=
  (innerTwo.Set 1 (some (NewStaticProfile 1 "admin" []).toProfile)).Set 2
    (some (NewStaticProfile 2 "admin" []).toProfile)

/-- The cached resolver of `TestCachedResolver_InvalidateAll` after its two
populating calls `Resolve(ctx, 1)` and `Resolve(ctx, 2)`. -/
def warmTwo : CachedResolver (StaticResolver Nat) Unit Nat :=
  (((NewCachedResolver StaticResolver.toResolver fiveMinutes).Resolve
      (testWorld innerTwo) () 1).2.1.Resolve
    (((NewCachedResolver StaticResolver.toResolver fiveMinutes).Resolve
      (testWorld innerTwo) () 1).2.2) () 2).2.1

/-- The world of that test after the populating calls and the two `Set`:
the clock reads 2, 3, ... nanoseconds and both inner calls are on record. -/
def laterTwoWorld : World (StaticResolver Nat) Nat :=
  ⟨fun n => (n : Int) + 2, innerTwoAdmin, [1, 2]⟩

/-! ## internal/models/profile.go and internal/policy/db_profile_resolver.go -/

/-- Struct `models.Permission`: a stored permission row.  The time stamps and
the description, which no function here reads, are left out. -/
structure models.Permission where
  ID : Nat
  ResourceType : String
  Action : String

/-- Method `models.Permission.Code`. -/
def models.Permission.Code (p : models.Permission) : String :=
  p.ResourceType ++ ":" ++ p.Action

/-- Struct `models.Profile`: a stored role with its preloaded permission rows. -/
structure models.Profile where
  ID : Nat
  Name : String
  Permissions : List models.Permission

/-- Struct `dbProfileAdapter`.  The pointer `profile` is not nil:
`DBProfileResolver.Resolve` builds an adapter only for a user whose profile is
not nil. -/
structure dbProfileAdapter where
  profile : models.Profile

/-- The loop of `dbProfileAdapter.HasPermission` over the permission rows, in
the order of the slice. -/
def rangeRowsMatch : List models.Permission → Permission → Bool
  | [], _ => false
  | p :: rest, perm =>
    if Permission.Matches (NewPermission p.ResourceType p.Action) perm then true
    else rangeRowsMatch rest perm

/-- Method `dbProfileAdapter.HasPermission`. -/
def dbProfileAdapter.HasPermission (a : dbProfileAdapter) (perm : Permission) : Bool :=
  rangeRowsMatch a.profile.Permissions perm

/-- Method `dbProfileAdapter.Permissions`. -/
def dbProfileAdapter.Permissions (a : dbProfileAdapter) : List Permission :=
  a.profile.Permissions.map (fun p => NewPermission p.ResourceType p.Action)

/-- A `*dbProfileAdapter` used as a `gate.Profile`. -/
def dbProfileAdapter.toProfile (a : dbProfileAdapter) : Profile :=
  ⟨a.profile.ID, a.profile.Name, a.HasPermission, a.Permissions⟩

/-! ## go-invoices/internal/models/client.go -/

/-- Struct `models.Client`, with the fields that `GetUserID` and `FullAddress`
read. -/
structure models.Client where
  UserID : Nat
  Address : String
  City : String
  PostalCode : String
  Country : String

/-- Method `Client.GetUserID`. -/
def models.Client.GetUserID (c : models.Client) : Nat :=
  c.UserID

/-- Method `Client.FullAddress`: each `let` is one assignment to `addr`. -/
def models.Client.FullAddress (c : models.Client) : String :=
  let addr := c.Address
  let addr :=
    if c.PostalCode ≠ "" ∨ c.City ≠ "" then
      let addr := if addr ≠ "" then addr ++ "\n" else addr
      let addr := addr ++ c.PostalCode
      let addr := if c.PostalCode ≠ "" ∧ c.City ≠ "" then addr ++ " " else addr
      addr ++ c.City
    else addr
  let addr :=
    if c.Country ≠ "" then
      let addr := if addr ≠ "" then addr ++ "\n" else addr
      addr ++ c.Country
    else addr
  addr

/-- The address as the claim words it: the non-empty lines among the address,
the postal code and city joined by one space (leaving out an empty one), and
the country, joined by a newline. -/
def fullAddressLines (c : models.Client) : String :=
  "\n".intercalate
    ([c.Address, " ".intercalate ([c.PostalCode, c.City].filter (fun x => x ≠ "")),
      c.Country].filter (fun x => x ≠ ""))

/-! ## billing-app/internal/services/invoice.go

The amounts are `float64` in the source; here they are rationals, so the
arithmetic is exact. -/

/-- Struct `Product` of billing-app, with the two fields that `ComputeTotals`
reads. -/
structure billing.Product where
  UnitPrice : ℚ
  VATRate : ℚ

/-- Struct `InvoiceItem` of billing-app. -/
structure billing.InvoiceItem where
  Quantity : Int
  Product : billing.Product
  Remise : ℚ

/-- Struct `Invoice` of billing-app, with the fields that `ComputeTotals`
reads and `Acompte`, which it leaves alone. -/
structure billing.Invoice where
  Items : List billing.InvoiceItem
  Remise : ℚ
  Acompte : ℚ
  Avoir : ℚ

/-- The value of `lineHT` at `ht += lineHT` in the loop body of
`ComputeTotals`: quantity times unit price, less the item discount when that
is positive and strictly below the line amount. -/
def billing.lineHT (it : billing.InvoiceItem) : ℚ :=
  let qty : ℚ := (it.Quantity : ℚ)
  let price := it.Product.UnitPrice
  let lineHT := qty * price
  if it.Remise > 0 ∧ it.Remise < lineHT then lineHT - it.Remise else lineHT

/-- One pass of the loop body of `ComputeTotals` on the running `(ht, tva)`. -/
def billing.addItem (acc : ℚ × ℚ) (it : billing.InvoiceItem) : ℚ × ℚ :=
  let lineHT := billing.lineHT it
  let ht := acc.1 + lineHT
  let rate := it.Product.VATRate
  let rate := if rate < 0 then 0 else rate
  (ht, acc.2 + lineHT * rate)

/-- Method `InvoiceService.ComputeTotals`: `(ht, tva, ttc)`; a nil invoice is
`none`. -/
def billing.ComputeTotals (inv : Option billing.Invoice) : ℚ × ℚ × ℚ :=
  match inv with
  | none => (0, 0, 0)
  | some inv =>
    match inv.Items.foldl billing.addItem (0, 0) with
    | (ht, tva) =>
      let ht := if inv.Remise > 0 ∧ inv.Remise < ht then ht - inv.Remise else ht
      let ht := if inv.Avoir > 0 ∧ inv.Avoir < ht then ht - inv.Avoir else ht
      (ht, tva, ht + tva)

/-- An invoice with one item: quantity 1 of a product at unit price 10 and VAT
rate 0, with the item discount `remise`. -/
def billing.oneItemInvoice (remise : ℚ) : billing.Invoice :=
  ⟨[⟨1, ⟨10, 0⟩, remise⟩], 0, 0, 0⟩

/-! ## Sequences of calls on a cached resolver -/

/-- One call on a `CachedResolver`. -/
inductive CacheOp (Ctx U : Type) where
  | Resolve (ctx : Ctx) (user : U)
  | Invalidate (user : U)
  | InvalidateAll

/-- Runs the calls `ops` one after the other on the cached resolver `r` in the
world `w`, and lists for every `Resolve` call its subject and what it
returned. -/
def runOps {σ Ctx U : Type} [DecidableEq U] (r : CachedResolver σ Ctx U) (w : World σ U) :
    List (CacheOp Ctx U) →
      List (U × (Option Profile × Option GoError)) × CachedResolver σ Ctx U × World σ U
  | [] => ([], r, w)
  | CacheOp.Resolve ctx user :: ops =>
    match r.Resolve w ctx user with
    | (res, r', w') =>
      match runOps r' w' ops with
      | (out, r'', w'') => ((user, res) :: out, r'', w'')
  | CacheOp.Invalidate user :: ops => runOps (r.Invalidate user) w ops
  | CacheOp.InvalidateAll :: ops => runOps r.InvalidateAll w ops

/-- What `rootZeroResolver` returns for a user, whatever the state and the
context. -/
def rootZeroAnswer (userID : Nat) : Option Profile × Option GoError :=
  (rootZeroResolver.Resolve () ⟨none⟩ userID).1

/-- A sequence of calls on a cached resolver over `rootZeroResolver`. -/
def sampleOps : List (CacheOp Context Nat) :=
  [CacheOp.Resolve ⟨none⟩ 7, CacheOp.Resolve ⟨none⟩ 7, CacheOp.Invalidate 7,
    CacheOp.Resolve ⟨none⟩ 0, CacheOp.InvalidateAll, CacheOp.Resolve ⟨none⟩ 7,
    CacheOp.Resolve ⟨none⟩ 3]

/-- The client of the case `full address` of `TestClient_FullAddress`. -/
def fullClient : models.Client :=
  ⟨1, "123 Main St", "Paris", "75001", "France"⟩

/-! ## The lock operations of cached_resolver.go

The field `mu sync.RWMutex`, which the definitions above leave out, acts only
through the order in which a call locks, unlocks, touches the map, reads the
clock and calls the inner resolver.  The definitions below are copies of
`fetch`, `Resolve`, `Invalidate` and `InvalidateAll` that also list these
steps, in program order. -/

/-- One step of a call on a `CachedResolver`, as far as the mutex is
concerned: the four operations on `r.mu`, the accesses to the map `r.cache`, a
call of `time.Now()`, and the call `r.inner.Resolve(ctx, user)`. -/
inductive Event (U : Type) where
  | RLock
  | RUnlock
  | Lock
  | Unlock
  | MapRead (user : U)
  | MapWrite (user : U)
  | MapDelete (user : U)
  | MapReset
  | Now
  | InnerResolve (user : U)
  deriving DecidableEq

/-- Lines 44 to 58 of `CachedResolver.Resolve` with their steps: the inner
call; then, on a nil error, `r.mu.Lock()`, the assignment
`r.cache[user] = &cacheEntry{.., time.Now().Add(r.ttl)}`, whose right-hand side
reads the clock, and `r.mu.Unlock()`. -/
def CachedResolver.fetchTraced {σ Ctx U : Type} [DecidableEq U]
    (r : CachedResolver σ Ctx U) (w : World σ U) (ctx : Ctx) (user : U) :
    List (Event U) ×
      ((Option Profile × Option GoError) × CachedResolver σ Ctx U × World σ U) :=
  match r.callInner w ctx user with
  | ((profile, err), w1) =>
    match err with
    | some e => ([Event.InnerResolve user], ((none, some e), r, w1))
    | none =>
      match w1.Now with
      | (now, w2) =>
        ([Event.InnerResolve user, Event.Lock, Event.Now, Event.MapWrite user, Event.Unlock],
          ((profile, none),
            ⟨r.inner, fun u => if u = user then some ⟨profile, now + r.ttl⟩ else r.cache u,
              r.ttl⟩,
            w2))

/-- Method `CachedResolver.Resolve` with its steps: `r.mu.RLock()`, the map
read, `r.mu.RUnlock()`; the clock read of the test when an entry was found;
then either the return of the cached profile or the steps of lines 44 to 58. -/
def CachedResolver.ResolveTraced {σ Ctx U : Type} [DecidableEq U]
    (r : CachedResolver σ Ctx U) (w : World σ U) (ctx : Ctx) (user : U) :
    List (Event U) ×
      ((Option Profile × Option GoError) × CachedResolver σ Ctx U × World σ U) :=
  match r.cache user with
  | some entry =>
    match w.Now with
    | (now, w1) =>
      if now < entry.expiresAt then
        ([Event.RLock, Event.MapRead user, Event.RUnlock, Event.Now],
          ((entry.profile, none), r, w1))
      else
        match r.fetchTraced w1 ctx user with
        | (events, out) =>
          ([Event.RLock, Event.MapRead user, Event.RUnlock, Event.Now] ++ events, out)
  | none =>
    match r.fetchTraced w ctx user with
    | (events, out) => ([Event.RLock, Event.MapRead user, Event.RUnlock] ++ events, out)

/-- Method `CachedResolver.Invalidate` with its steps. -/
def CachedResolver.InvalidateTraced {σ Ctx U : Type} [DecidableEq U]
    (r : CachedResolver σ Ctx U) (user : U) : List (Event U) × CachedResolver σ Ctx U :=
  ([Event.Lock, Event.MapDelete user, Event.Unlock], r.Invalidate user)

/-- Method `CachedResolver.InvalidateAll` with its steps. -/
def CachedResolver.InvalidateAllTraced {σ Ctx U : Type} (r : CachedResolver σ Ctx U) :
    List (Event U) × CachedResolver σ Ctx U :=
  ([Event.Lock, Event.MapReset, Event.Unlock], r.InvalidateAll)

/-- Which lock of `r.mu` the running call holds. -/
inductive Held where
  | free
  | shared
  | exclusive
  deriving DecidableEq

/-- Checks the steps of one call against the lock discipline, starting with
the lock held as `h`: the inner resolver is called, and the clock of the
freshness test is read, only while the call holds no lock; the map is read
only under the shared lock and nothing else happens under it; under the
exclusive lock there is nothing but the map mutation and the clock read of its
right-hand side; and the call ends holding no lock. -/
def lockDiscipline {U : Type} : Held → List (Event U) → Bool
  | h, [] => decide (h = Held.free)
  | Held.free, Event.RLock :: es => lockDiscipline Held.shared es
  | Held.free, Event.Lock :: es => lockDiscipline Held.exclusive es
  | Held.free, Event.Now :: es => lockDiscipline Held.free es
  | Held.free, Event.InnerResolve _ :: es => lockDiscipline Held.free es
  | Held.shared, Event.MapRead _ :: es => lockDiscipline Held.shared es
  | Held.shared, Event.RUnlock :: es => lockDiscipline Held.free es
  | Held.exclusive, Event.MapWrite _ :: es => lockDiscipline Held.exclusive es
  | Held.exclusive, Event.MapDelete _ :: es => lockDiscipline Held.exclusive es
  | Held.exclusive, Event.MapReset :: es => lockDiscipline Held.exclusive es
  | Held.exclusive, Event.Now :: es => lockDiscipline Held.exclusive es
  | Held.exclusive, Event.Unlock :: es => lockDiscipline Held.free es
  | _, _ :: _ => false

/-- A `sync.RWMutex`, as its documentation describes it: the lock is held by
any number of readers or by one writer. -/
structure RWMutex where
  readers : Nat
  writer : Bool
  deriving DecidableEq

/-- One step of some goroutine on the mutex: `none` when the step cannot
proceed, because `RLock` finds a writer, `Lock` finds a writer or a reader, or
an unlock finds nothing to release.  A step that is not a mutex operation
leaves the mutex as it is. -/
def RWMutex.step {U : Type} (m : RWMutex) : Event U → Option RWMutex
  | Event.RLock => if m.writer then none else some ⟨m.readers + 1, false⟩
  | Event.RUnlock => if m.readers = 0 then none else some ⟨m.readers - 1, m.writer⟩
  | Event.Lock => if m.writer ∨ m.readers ≠ 0 then none else some ⟨0, true⟩
  | Event.Unlock => if m.writer then some ⟨m.readers, false⟩ else none
  | _ => some m

/-- Runs the steps of a schedule on the mutex: `none` when some step cannot
proceed. -/
def RWMutex.run {U : Type} (m : RWMutex) : List (Event U) → Option RWMutex
  | [] => some m
  | e :: es =>
    match m.step e with
    | none => none
    | some m' => RWMutex.run m' es

/-- The schedules of two concurrent calls: `Interleave xs ys zs` says that
`zs` runs the steps `xs` of one call and the steps `ys` of the other, each in
its own order. -/
inductive Interleave {α : Type} : List α → List α → List α → Prop where
  | done : Interleave [] [] []
  | first (x : α) {xs ys zs : List α} :
      Interleave xs ys zs → Interleave (x :: xs) ys (x :: zs)
  | second (y : α) {xs ys zs : List α} :
      Interleave xs ys zs → Interleave xs (y :: ys) (y :: zs)

/-- Runs the steps of one reading call from a mutex with `k` readers and no
writer, and gives the number of readers left: `none` when the call takes or
releases the exclusive lock, or releases a shared lock that is not held. -/
def readersAfter {U : Type} : Nat → List (Event U) → Option Nat
  | k, [] => some k
  | k, Event.RLock :: es => readersAfter (k + 1) es
  | k, Event.RUnlock :: es => if k = 0 then none else readersAfter (k - 1) es
  | _, Event.Lock :: _ => none
  | _, Event.Unlock :: _ => none
  | k, _ :: es => readersAfter k es

/-! ## Theorems: permissions -/

theorem cutFirst_append (sep : Char) (before after : List Char) (h : sep ∉ before) :
    cutFirst sep (before ++ sep :: after) = some (before, after) := by
  induction before with
  | nil => simp [cutFirst]
  | cons c cs ih =>
    have hc : c ≠ sep := fun hEq => h (by simp [hEq])
    have hcs : sep ∉ cs := fun hIn => h (by simp [hIn])
    simp [cutFirst, hc, ih hcs]

theorem NewPermission_data (resourceType : String) (action : Action) :
    (NewPermission resourceType action).data = resourceType.data ++ ':' :: action.data := by
  simp [NewPermission, String.data_append]

theorem Parse_NewPermission (resourceType : String) (action : Action)
    (h : ':' ∉ resourceType.data) :
    Permission.Parse (NewPermission resourceType action) = (resourceType, action) := by
  unfold Permission.Parse SplitN2
  rw [NewPermission_data, cutFirst_append ':' _ _ h]

theorem Matches_eq_true_iff (p requested : Permission) :
    Permission.Matches p requested = true ↔
      p = PermissionSuperAdmin ∨ p = requested ∨
        ((Permission.Parse p).2 = WildcardAll ∧
          (Permission.Parse p).1 = (Permission.Parse requested).1) := by
  unfold Permission.Matches
  by_cases h1 : p = PermissionSuperAdmin
  · simp [h1]
  · by_cases h2 : p = requested
    · simp [h2]
    · simp only [h1, h2, if_false, false_or]
      by_cases h3 : (Permission.Parse p).1 = (Permission.Parse requested).1 ∧
          (Permission.Parse p).2 = WildcardAll
      · simp [h3.1, h3.2]
      · have h3' : ¬ ((Permission.Parse p).2 = WildcardAll ∧
            (Permission.Parse p).1 = (Permission.Parse requested).1) :=
          fun h => h3 ⟨h.2, h.1⟩
        simp [h3, h3']

/-- C3: `p.Matches(q)` is true exactly when `p` is `"*:*"`, or `p` equals `q`,
or the action segment of `p` is `"*"` and the resource segments of `p` and `q`
(both as returned by `Parse`) are equal; in every other case it is false. -/
theorem Matches_spec (p q : Permission) :
    (Permission.Matches p q = true ↔
      p = "*:*" ∨ p = q ∨
        ((Permission.Parse p).2 = "*" ∧ (Permission.Parse p).1 = (Permission.Parse q).1)) ∧
    (¬ (p = "*:*" ∨ p = q ∨
        ((Permission.Parse p).2 = "*" ∧ (Permission.Parse p).1 = (Permission.Parse q).1)) →
      Permission.Matches p q = false) := by
  have h := Matches_eq_true_iff p q
  refine ⟨h, fun hn => ?_⟩
  cases hm : Permission.Matches p q with
  | false => rfl
  | true => exact absurd (h.mp hm) hn

theorem Matches_spec_witness :
    Permission.Matches "product:*" "product:create" = true ∧
      Permission.Matches "product:view" "invoice:view" = false :=
  ⟨(Matches_spec "product:*" "product:create").1.mpr (by decide),
    (Matches_spec "product:view" "invoice:view").2 (by decide)⟩

/-- C4, as stated, fails when a resource type contains `':'`: the grant
`NewPermission("x", "*")` matches the request `NewPermission("x:y", "view")`,
and the grant `NewPermission("x:y", "z")` is the very string of the request
`NewPermission("x", "y:z")`, although the resource types differ and neither
grant is `"*:*"`. -/
theorem Matches_other_resource_counterexample :
    (("x" : String) ≠ "x:y" ∧ NewPermission "x" "*" ≠ PermissionSuperAdmin ∧
      Permission.Matches (NewPermission "x" "*") (NewPermission "x:y" "view") = true) ∧
    (("x:y" : String) ≠ "x" ∧ NewPermission "x:y" "z" ≠ PermissionSuperAdmin ∧
      Permission.Matches (NewPermission "x:y" "z") (NewPermission "x" "y:z") = true) := by
  decide

/-- C4, amended: for resource types `r` and `r'` that contain no `':'` and
differ, and all actions `a` and `a'`, if `NewPermission(r, a)` is not `"*:*"`
then `NewPermission(r, a).Matches(NewPermission(r', a'))` is false. -/
theorem Matches_other_resource (r r' : String) (a a' : Action)
    (hr : ':' ∉ r.data) (hr' : ':' ∉ r'.data) (hne : r ≠ r')
    (hsuper : NewPermission r a ≠ PermissionSuperAdmin) :
    Permission.Matches (NewPermission r a) (NewPermission r' a') = false := by
  cases hm : Permission.Matches (NewPermission r a) (NewPermission r' a') with
  | false => rfl
  | true =>
    exfalso
    rcases (Matches_eq_true_iff _ _).mp hm with h | h | h
    · exact hsuper h
    · have hp := congrArg Permission.Parse h
      rw [Parse_NewPermission r a hr, Parse_NewPermission r' a' hr'] at hp
      exact hne (congrArg Prod.fst hp)
    · rw [Parse_NewPermission r a hr, Parse_NewPermission r' a' hr'] at h
      exact hne h.2

theorem Matches_other_resource_witness :
    Permission.Matches (NewPermission "product" "*") (NewPermission "invoice" "create")
      = false :=
  Matches_other_resource "product" "invoice" "*" "create" (by decide) (by decide)
    (by decide) (by decide)

/-- C5, as stated, fails when the resource type contains `':'`: for the
resource type `"a:b"` the grant `NewPermission("a:b", "*")` does not match
`NewPermission("a:b", "view")`. -/
theorem Matches_wildcard_counterexample :
    Permission.Matches (NewPermission "a:b" "*") (NewPermission "a:b" "view") = false := by
  decide

/-- C5, amended: for every resource type `r` that contains no `':'` and every
action `a`, `NewPermission(r, "*").Matches(NewPermission(r, a))` is true. -/
theorem Matches_wildcard (r : String) (a : Action) (hr : ':' ∉ r.data) :
    Permission.Matches (NewPermission r "*") (NewPermission r a) = true := by
  rw [Matches_eq_true_iff]
  right; right
  rw [Parse_NewPermission r "*" hr, Parse_NewPermission r a hr]
  exact ⟨rfl, rfl⟩

theorem Matches_wildcard_witness :
    Permission.Matches (NewPermission "product" "*") (NewPermission "product" "delete")
      = true :=
  Matches_wildcard "product" "delete" (by decide)

/-! ## Theorems: static profile -/

theorem rangeMatches_eq_true_iff (keys : List Permission) (q : Permission) :
    rangeMatches keys q = true ↔ ∃ g, g ∈ keys ∧ Permission.Matches g q = true := by
  induction keys with
  | nil => simp [rangeMatches]
  | cons k ks ih =>
    unfold rangeMatches
    cases hk : Permission.Matches k q with
    | true =>
      simp only [if_true, true_iff]
      exact ⟨k, List.mem_cons_self k ks, hk⟩
    | false =>
      simp only [Bool.false_eq_true, if_false, ih]
      constructor
      · rintro ⟨g, hg, hm⟩
        exact ⟨g, List.mem_cons_of_mem k hg, hm⟩
      · rintro ⟨g, hg, hm⟩
        rcases List.mem_cons.mp hg with hgk | hg'
        · rw [hgk, hk] at hm
          exact absurd hm (by decide)
        · exact ⟨g, hg', hm⟩

theorem mem_mapSetTrue (m : List Permission) (perm g : Permission) :
    g ∈ mapSetTrue m perm ↔ g ∈ m ∨ g = perm := by
  unfold mapSetTrue
  by_cases h : perm ∈ m
  · simp only [h, if_true]
    constructor
    · exact fun hg => Or.inl hg
    · rintro (hg | rfl)
      · exact hg
      · exact h
  · simp [h]

theorem mem_foldl_mapSetTrue (perms m : List Permission) (g : Permission) :
    g ∈ perms.foldl mapSetTrue m ↔ g ∈ m ∨ g ∈ perms := by
  induction perms generalizing m with
  | nil => simp
  | cons k ks ih =>
    rw [List.foldl_cons, ih, mem_mapSetTrue, List.mem_cons]
    tauto

theorem mem_NewStaticProfile (id : Nat) (name : String) (perms : List Permission)
    (g : Permission) : g ∈ (NewStaticProfile id name perms).permissions ↔ g ∈ perms := by
  simp [NewStaticProfile, mem_foldl_mapSetTrue]

theorem HasPermission_NewStaticProfile (id : Nat) (name : String)
    (perms : List Permission) (q : Permission) :
    (NewStaticProfile id name perms).HasPermission q = true ↔
      ∃ g, g ∈ perms ∧ Permission.Matches g q = true := by
  unfold StaticProfile.HasPermission
  rw [rangeMatches_eq_true_iff]
  constructor
  · rintro ⟨g, hg, hm⟩
    exact ⟨g, (mem_NewStaticProfile id name perms g).mp hg, hm⟩
  · rintro ⟨g, hg, hm⟩
    exact ⟨g, (mem_NewStaticProfile id name perms g).mpr hg, hm⟩

theorem rangeMatches_congr (keys keys' : List Permission) (q : Permission)
    (h : ∀ g, g ∈ keys ↔ g ∈ keys') : rangeMatches keys q = rangeMatches keys' q := by
  have e : rangeMatches keys q = true ↔ rangeMatches keys' q = true := by
    rw [rangeMatches_eq_true_iff, rangeMatches_eq_true_iff]
    constructor
    · rintro ⟨g, hg, hm⟩
      exact ⟨g, (h g).mp hg, hm⟩
    · rintro ⟨g, hg, hm⟩
      exact ⟨g, (h g).mpr hg, hm⟩
  cases h1 : rangeMatches keys q <;> cases h2 : rangeMatches keys' q <;> simp_all

theorem rangeMatches_perm (keys order : List Permission) (q : Permission)
    (h : order.Perm keys) : rangeMatches order q = rangeMatches keys q :=
  rangeMatches_congr order keys q (fun _ => h.mem_iff)

/-- C6: `"*:*"` matches `NewPermission(r, a)` for every resource type `r` and
action `a`, and a static profile whose granted permissions contain `"*:*"` has
`HasPermission(NewPermission(r, a))` true, in whatever order the map is
ranged over. -/
theorem SuperAdmin_matches_everything (r : String) (a : Action) :
    Permission.Matches PermissionSuperAdmin (NewPermission r a) = true ∧
    (∀ (id : Nat) (name : String) (perms : List Permission),
      PermissionSuperAdmin ∈ perms →
        (NewStaticProfile id name perms).HasPermission (NewPermission r a) = true ∧
        ∀ order : List Permission, order.Perm (NewStaticProfile id name perms).permissions →
          rangeMatches order (NewPermission r a) = true) := by
  have hm : Permission.Matches PermissionSuperAdmin (NewPermission r a) = true := by
    simp [Permission.Matches]
  refine ⟨hm, fun id name perms hin => ?_⟩
  have hp : (NewStaticProfile id name perms).HasPermission (NewPermission r a) = true :=
    (HasPermission_NewStaticProfile id name perms _).mpr ⟨PermissionSuperAdmin, hin, hm⟩
  refine ⟨hp, fun order ho => ?_⟩
  rw [rangeMatches_perm _ order _ ho]
  exact hp

theorem SuperAdmin_matches_everything_witness :
    Permission.Matches PermissionSuperAdmin (NewPermission "invoice" "delete") = true ∧
    (NewStaticProfile 1 "admin" ["product:view", "*:*"]).HasPermission
      (NewPermission "invoice" "delete") = true :=
  ⟨(SuperAdmin_matches_everything "invoice" "delete").1,
    ((SuperAdmin_matches_everything "invoice" "delete").2 1 "admin"
      ["product:view", "*:*"] (by decide)).1⟩

/-- C7: for a profile built by `NewStaticProfile(id, name, perms...)`,
`HasPermission(q)` is true exactly when some `g` among `perms` has
`g.Matches(q)`; it is false for every `q` when `perms` is empty; two argument
lists with the same members (in any order, with any multiplicity) give the same
result; and so does every order in which the map may be ranged over. -/
theorem StaticProfile_HasPermission_spec (id : Nat) (name : String)
    (perms : List Permission) (q : Permission) :
    ((NewStaticProfile id name perms).HasPermission q = true ↔
      ∃ g, g ∈ perms ∧ Permission.Matches g q = true) ∧
    (NewStaticProfile id name []).HasPermission q = false ∧
    (∀ perms' : List Permission, (∀ g, g ∈ perms ↔ g ∈ perms') →
      (NewStaticProfile id name perms').HasPermission q =
        (NewStaticProfile id name perms).HasPermission q) ∧
    (∀ order : List Permission, order.Perm (NewStaticProfile id name perms).permissions →
      rangeMatches order q = (NewStaticProfile id name perms).HasPermission q) := by
  refine ⟨HasPermission_NewStaticProfile id name perms q, rfl, ?_, ?_⟩
  · intro perms' h
    unfold StaticProfile.HasPermission
    apply rangeMatches_congr
    intro g
    rw [mem_NewStaticProfile, mem_NewStaticProfile]
    exact (h g).symm
  · intro order ho
    exact rangeMatches_perm _ order q ho

theorem StaticProfile_HasPermission_spec_witness :
    (NewStaticProfile 1 "editor" ["product:view", "product:create", "product:view"]).HasPermission
        "product:create" =
      (NewStaticProfile 1 "editor" ["product:create", "product:view"]).HasPermission
        "product:create" :=
  (StaticProfile_HasPermission_spec 1 "editor" ["product:create", "product:view"]
    "product:create").2.2.1 ["product:view", "product:create", "product:view"]
    (by intro g; simp only [List.mem_cons, List.mem_singleton, List.not_mem_nil]; tauto)

/-! ## Theorems: gates -/

/-- C1: `HybridGate.Authorize` returns nil exactly when the subject is not the
zero value, the resolver returns a non-nil profile with a nil error, that
profile has the permission `NewPermission(t, a)`, and the resource is nil or no
policy is registered for `t` or the registered policy's `Can` returns true; in
every other case it returns `ErrUnauthorized`. -/
theorem HybridGate_Authorize_spec {σ Ctx U R : Type} [DecidableEq U] [Zero U]
    (g : HybridGate σ Ctx U R) (s : σ) (ctx : Ctx) (u : U) (a : Action) (t : String)
    (r : Option R) :
    ((g.Authorize s ctx u a t r).1 = none ↔
      u ≠ 0 ∧
      ∃ prof : Profile, (g.resolver.Resolve s ctx u).1 = (some prof, none) ∧
        prof.HasPermission (NewPermission t a) = true ∧
        (r = none ∨ g.policies t = none ∨
          ∃ p : Policy Ctx U R, g.policies t = some p ∧ p.Can ctx u a r = true)) ∧
    ((g.Authorize s ctx u a t r).1 ≠ none →
      (g.Authorize s ctx u a t r).1 = some ErrUnauthorized) := by
  unfold HybridGate.Authorize
  by_cases hu : u = 0
  · simp [hu]
  · rw [if_neg hu]
    generalize g.resolver.Resolve s ctx u = res
    rcases res with ⟨⟨profile, err⟩, s'⟩
    cases err with
    | some e => cases profile <;> simp [hu]
    | none =>
      cases profile with
      | none => simp [hu]
      | some prof =>
        cases hperm : prof.HasPermission (NewPermission t a) with
        | false => simp [hperm, hu]
        | true =>
          cases r with
          | none => simp [hperm, hu]
          | some res =>
            cases hpol : g.policies t with
            | none => simp [hperm, hu]
            | some policy =>
              cases hcan : policy.Can ctx u a (some res) with
              | false => simp [hperm, hcan, hu]
              | true => simp [hperm, hcan, hu]

theorem HybridGate_Authorize_spec_witness :
    (ownershipGate.Authorize editorResolver () 1 ActionUpdate "product" (some ⟨1⟩)).1 = none ∧
    (ownershipGate.Authorize editorResolver () 2 ActionUpdate "product" (some ⟨1⟩)).1 =
      some ErrUnauthorized :=
  ⟨(HybridGate_Authorize_spec ownershipGate editorResolver () 1 ActionUpdate "product"
      (some ⟨1⟩)).1.mpr
      ⟨by decide, editorProfile.toProfile, rfl, by decide,
        Or.inr (Or.inr ⟨mockOwnerPolicy, rfl, by decide⟩)⟩,
    (HybridGate_Authorize_spec ownershipGate editorResolver () 2 ActionUpdate "product"
      (some ⟨1⟩)).2 (by decide)⟩

/-- C2: a zero-value subject is denied by every gate variant, whatever is
registered: `Gate.Authorize` and `HybridGate.Authorize` return
`ErrUnauthorized` (for `Gate` also when no policy is registered, so not
`ErrNoPolicyDefined`), and `Gate.Can`, `HybridGate.Can` and
`HybridGate.CanProfile` return false. -/
theorem zero_subject_denied {σ Ctx U R : Type} [DecidableEq U] [Zero U]
    (gate : Gate Ctx U R) (hybrid : HybridGate σ Ctx U R) (s : σ) (ctx : Ctx)
    (a : Action) (t : String) (r : Option R) :
    gate.Authorize ctx 0 a t r = some ErrUnauthorized ∧
    (NewGate Ctx U R).Authorize ctx 0 a t r = some ErrUnauthorized ∧
    gate.Authorize ctx 0 a t r ≠ some ErrNoPolicyDefined ∧
    gate.Can ctx 0 a t r = false ∧
    hybrid.Authorize s ctx 0 a t r = (some ErrUnauthorized, s) ∧
    hybrid.Can s ctx 0 a t r = (false, s) ∧
    hybrid.CanProfile s ctx 0 a t = (false, s) := by
  have hg : ∀ g : Gate Ctx U R, g.Authorize ctx 0 a t r = some ErrUnauthorized := by
    intro g
    simp [Gate.Authorize]
  have hh : hybrid.Authorize s ctx 0 a t r = (some ErrUnauthorized, s) := by
    simp [HybridGate.Authorize]
  refine ⟨hg gate, hg _, ?_, ?_, hh, ?_, ?_⟩
  · rw [hg gate]
    intro h
    cases h
  · simp [Gate.Can, hg gate]
  · simp [HybridGate.Can, hh]
  · simp [HybridGate.CanProfile]

/-- C8, as stated, fails: for the non-zero subject 1 and a resolver that
returns the error `connection refused`, `HybridGate.Authorize` returns
`ErrUnauthorized`, which is not the resolver's error. -/
theorem HybridGate_resolver_error_counterexample :
    (1 : Nat) ≠ 0 ∧
    (failingGate.resolver.Resolve () () 1).1.2 = some (GoError.other "connection refused") ∧
    (failingGate.Authorize () () 1 ActionView "product" none).1 = some ErrUnauthorized ∧
    (failingGate.Authorize () () 1 ActionView "product" none).1 ≠
      some (GoError.other "connection refused") := by
  decide

/-- C8, amended: for every non-zero subject, if the profile resolver returns a
non-nil error `e`, whatever profile comes with it, then `HybridGate.Authorize`
returns `ErrUnauthorized` in place of `e`, and `HybridGate.Can` and
`HybridGate.CanProfile` return false. -/
theorem HybridGate_resolver_error {σ Ctx U R : Type} [DecidableEq U] [Zero U]
    (g : HybridGate σ Ctx U R) (s : σ) (ctx : Ctx) (u : U) (a : Action) (t : String)
    (r : Option R) (e : GoError) (hu : u ≠ 0)
    (herr : (g.resolver.Resolve s ctx u).1.2 = some e) :
    (g.Authorize s ctx u a t r).1 = some ErrUnauthorized ∧
    (g.Can s ctx u a t r).1 = false ∧
    (g.CanProfile s ctx u a t).1 = false := by
  unfold HybridGate.Can HybridGate.CanProfile HybridGate.Authorize
  rw [if_neg hu, if_neg hu]
  revert herr
  generalize g.resolver.Resolve s ctx u = res
  rcases res with ⟨⟨profile, err⟩, s'⟩
  intro herr
  cases err with
  | none => cases herr
  | some e' => cases profile <;> simp

theorem HybridGate_resolver_error_witness :
    (failingGate.Authorize () () 1 ActionView "product" none).1 = some ErrUnauthorized :=
  (HybridGate_resolver_error failingGate () () 1 ActionView "product" none
    (GoError.other "connection refused") (by decide) rfl).1

/-- C9: `Gate.Authorize` returns `ErrUnauthorized` for the zero subject;
otherwise `ErrNoPolicyDefined` when no policy is registered for `t`; otherwise
`ErrUnauthorized` when the registered policy's `Can` returns false; otherwise
nil.  So `ErrNoPolicyDefined` is returned exactly when the subject is non-zero
and `t` has no policy, and `Gate.Can` is true exactly when `Authorize` returns
nil. -/
theorem Gate_Authorize_spec {Ctx U R : Type} [DecidableEq U] [Zero U]
    (g : Gate Ctx U R) (ctx : Ctx) (u : U) (a : Action) (t : String) (r : Option R) :
    (u = 0 → g.Authorize ctx u a t r = some ErrUnauthorized) ∧
    (u ≠ 0 → g.policies t = none → g.Authorize ctx u a t r = some ErrNoPolicyDefined) ∧
    (∀ p : Policy Ctx U R, u ≠ 0 → g.policies t = some p → p.Can ctx u a r = false →
      g.Authorize ctx u a t r = some ErrUnauthorized) ∧
    (∀ p : Policy Ctx U R, u ≠ 0 → g.policies t = some p → p.Can ctx u a r = true →
      g.Authorize ctx u a t r = none) ∧
    (g.Authorize ctx u a t r = some ErrNoPolicyDefined ↔ u ≠ 0 ∧ g.policies t = none) ∧
    (g.Can ctx u a t r = true ↔ g.Authorize ctx u a t r = none) := by
  unfold Gate.Can Gate.Authorize
  by_cases hu : u = 0
  · simp [hu]
  · cases hpol : g.policies t with
    | none => simp [hu]
    | some p =>
      cases hcan : p.Can ctx u a r with
      | false => simp [hu, hcan]
      | true => simp [hu, hcan]

theorem Gate_Authorize_spec_witness :
    ((NewGate Unit Nat mockResource).Register "invoice" (mockPolicy true)).Authorize ()
        0 ActionView "invoice" none = some ErrUnauthorized ∧
    ((NewGate Unit Nat mockResource).Register "invoice" (mockPolicy true)).Authorize ()
        1 ActionView "product" none = some ErrNoPolicyDefined ∧
    ((NewGate Unit Nat mockResource).Register "invoice" (mockPolicy false)).Authorize ()
        1 ActionView "invoice" none = some ErrUnauthorized ∧
    ((NewGate Unit Nat mockResource).Register "invoice" (mockPolicy true)).Authorize ()
        1 ActionView "invoice" none = none :=
  ⟨(Gate_Authorize_spec ((NewGate Unit Nat mockResource).Register "invoice" (mockPolicy true))
      () 0 ActionView "invoice" none).1 rfl,
    (Gate_Authorize_spec ((NewGate Unit Nat mockResource).Register "invoice" (mockPolicy true))
      () 1 ActionView "product" none).2.1 (by decide) rfl,
    (Gate_Authorize_spec ((NewGate Unit Nat mockResource).Register "invoice" (mockPolicy false))
      () 1 ActionView "invoice" none).2.2.1 (mockPolicy false) (by decide) rfl rfl,
    (Gate_Authorize_spec ((NewGate Unit Nat mockResource).Register "invoice" (mockPolicy true))
      () 1 ActionView "invoice" none).2.2.2.1 (mockPolicy true) (by decide) rfl rfl⟩

/-! ## Theorems: cached resolver -/

theorem Resolve_of_fresh {σ Ctx U : Type} [DecidableEq U] (r : CachedResolver σ Ctx U)
    (w : World σ U) (ctx : Ctx) (u : U) (e : cacheEntry)
    (hentry : r.cache u = some e) (hfresh : w.clock 0 < e.expiresAt) :
    r.Resolve w ctx u = ((e.profile, none), r, w.Now.2) := by
  unfold CachedResolver.Resolve
  rw [hentry]
  simp [World.Now, hfresh]

theorem fetch_innerCalls {σ Ctx U : Type} [DecidableEq U] (r : CachedResolver σ Ctx U)
    (w : World σ U) (ctx : Ctx) (u : U) :
    (r.fetch w ctx u).2.2.innerCalls = w.innerCalls ++ [u] := by
  unfold CachedResolver.fetch CachedResolver.callInner
  generalize r.inner.Resolve w.innerState ctx u = res
  rcases res with ⟨⟨profile, err⟩, s'⟩
  cases err <;> simp [World.Now]

theorem Resolve_innerCalls {σ Ctx U : Type} [DecidableEq U] (r : CachedResolver σ Ctx U)
    (w : World σ U) (ctx : Ctx) (u : U) :
    (r.Resolve w ctx u).2.2.innerCalls = w.innerCalls ∨
      (r.Resolve w ctx u).2.2.innerCalls = w.innerCalls ++ [u] := by
  unfold CachedResolver.Resolve
  cases hentry : r.cache u with
  | none => exact Or.inr (fetch_innerCalls r w ctx u)
  | some e =>
    by_cases hfresh : w.clock 0 < e.expiresAt
    · simp [World.Now, hfresh]
    · right
      simp only [World.Now, hfresh, if_false]
      exact fetch_innerCalls r _ ctx u

theorem fetch_of_success {σ Ctx U : Type} [DecidableEq U] (r : CachedResolver σ Ctx U)
    (w : World σ U) (ctx : Ctx) (u : U) (p : Option Profile) (s' : σ)
    (hinner : r.inner.Resolve w.innerState ctx u = ((p, none), s')) :
    (r.fetch w ctx u).1 = (p, none) ∧
      (r.fetch w ctx u).2.1.cache u = some ⟨p, w.clock 0 + r.ttl⟩ := by
  unfold CachedResolver.fetch CachedResolver.callInner
  rw [hinner]
  simp [World.Now]

theorem Resolve_cached_of_success {σ Ctx U : Type} [DecidableEq U]
    (r : CachedResolver σ Ctx U) (w : World σ U) (ctx : Ctx) (u : U) (e : cacheEntry)
    (hentry : (r.Resolve w ctx u).2.1.cache u = some e)
    (hok : (r.Resolve w ctx u).1.2 = none) :
    (r.Resolve w ctx u).1 = (e.profile, none) := by
  revert hentry hok
  have hfetch : ∀ w1 : World σ U, (r.fetch w1 ctx u).2.1.cache u = some e →
      (r.fetch w1 ctx u).1.2 = none → (r.fetch w1 ctx u).1 = (e.profile, none) := by
    intro w1
    unfold CachedResolver.fetch CachedResolver.callInner
    generalize r.inner.Resolve w1.innerState ctx u = res
    rcases res with ⟨⟨profile, err⟩, s'⟩
    cases err with
    | some e' => simp
    | none =>
      simp only [World.Now, if_true]
      intro h _
      cases h
      rfl
  unfold CachedResolver.Resolve
  cases hc : r.cache u with
  | none => exact hfetch w
  | some e0 =>
    by_cases hfresh : w.clock 0 < e0.expiresAt
    · simp only [World.Now, hfresh, if_true]
      intro h _
      rw [hc] at h
      cases h
      rfl
    · simp only [World.Now, hfresh, if_false]
      exact hfetch _

/-- C10: when the cache holds an entry for `u` whose `expiresAt` is strictly
after the clock reading, `Resolve(ctx, u)` returns that entry's profile (a nil
one included) with a nil error, does not call the inner resolver, and leaves
the cached resolver and its cache unchanged, whatever the inner resolver is or
would return.  So of two `Resolve` calls for `u`, of which the second reads the
clock before the expiry of the entry that the cache holds after the first, the
second makes no call of the inner resolver, both together make at most one, and
the second returns what the first returned if that was not an error; in
particular after a miss that the inner resolver answers with a nil error, the
expiry is the reading at the write plus the ttl, and a second call before it
returns the same profile with exactly one inner call in total. -/
theorem CachedResolver_Resolve_hit {σ Ctx U : Type} [DecidableEq U]
    (r : CachedResolver σ Ctx U) (w : World σ U) (ctx : Ctx) (u : U) :
    (∀ e : cacheEntry, r.cache u = some e → w.clock 0 < e.expiresAt →
      (r.Resolve w ctx u).1 = (e.profile, none) ∧
      (r.Resolve w ctx u).2.1 = r ∧
      (r.Resolve w ctx u).2.1.cache = r.cache ∧
      (r.Resolve w ctx u).2.2.innerCalls = w.innerCalls ∧
      (r.Resolve w ctx u).2.2.innerState = w.innerState ∧
      ∀ inner' : ProfileResolver σ Ctx U,
        ((⟨inner', r.cache, r.ttl⟩ : CachedResolver σ Ctx U).Resolve w ctx u).1 =
          (e.profile, none)) ∧
    (∀ (e : cacheEntry) (w' : World σ U) (ctx' : Ctx),
      (r.Resolve w ctx u).2.1.cache u = some e →
      w'.innerCalls = (r.Resolve w ctx u).2.2.innerCalls →
      w'.clock 0 < e.expiresAt →
      (((r.Resolve w ctx u).2.1.Resolve w' ctx' u).2.2.innerCalls = w'.innerCalls ∧
       (((r.Resolve w ctx u).2.1.Resolve w' ctx' u).2.2.innerCalls).length ≤
          w.innerCalls.length + 1 ∧
       ((r.Resolve w ctx u).2.1.Resolve w' ctx' u).1 = (e.profile, none) ∧
       ((r.Resolve w ctx u).1.2 = none →
          ((r.Resolve w ctx u).2.1.Resolve w' ctx' u).1 = (r.Resolve w ctx u).1))) ∧
    (∀ (p : Option Profile) (s' : σ) (w' : World σ U) (ctx' : Ctx),
      r.cache u = none →
      r.inner.Resolve w.innerState ctx u = ((p, none), s') →
      w'.innerCalls = (r.Resolve w ctx u).2.2.innerCalls →
      w'.clock 0 < w.clock 0 + r.ttl →
      ((r.Resolve w ctx u).1 = (p, none) ∧
       ((r.Resolve w ctx u).2.1.Resolve w' ctx' u).1 = (p, none) ∧
       ((r.Resolve w ctx u).2.1.Resolve w' ctx' u).2.2.innerCalls =
          w.innerCalls ++ [u])) := by
  refine ⟨?_, ?_, ?_⟩
  · intro e hentry hfresh
    have h := Resolve_of_fresh r w ctx u e hentry hfresh
    refine ⟨by rw [h], by rw [h], by rw [h], by rw [h]; rfl, by rw [h]; rfl, ?_⟩
    intro inner'
    rw [Resolve_of_fresh ⟨inner', r.cache, r.ttl⟩ w ctx u e hentry hfresh]
  · intro e w' ctx' hentry hcalls hfresh
    have h := Resolve_of_fresh (r.Resolve w ctx u).2.1 w' ctx' u e hentry hfresh
    have hsame : ((r.Resolve w ctx u).2.1.Resolve w' ctx' u).2.2.innerCalls =
        w'.innerCalls := by
      rw [h]; rfl
    refine ⟨hsame, ?_, by rw [h], ?_⟩
    · rw [hsame, hcalls]
      rcases Resolve_innerCalls r w ctx u with h1 | h1
      · rw [h1]; exact Nat.le_succ _
      · rw [h1]; simp
    · intro hok
      rw [h]
      exact (Resolve_cached_of_success r w ctx u e hentry hok).symm
  · intro p s' w' ctx' hmiss hinner hcalls hfresh
    have hR : r.Resolve w ctx u = r.fetch w ctx u := by
      unfold CachedResolver.Resolve
      rw [hmiss]
    have hf := fetch_of_success r w ctx u p s' hinner
    have hentry : (r.Resolve w ctx u).2.1.cache u = some ⟨p, w.clock 0 + r.ttl⟩ := by
      rw [hR]; exact hf.2
    have h := Resolve_of_fresh (r.Resolve w ctx u).2.1 w' ctx' u _ hentry hfresh
    refine ⟨by rw [hR]; exact hf.1, by rw [h], ?_⟩
    rw [h]
    show w'.innerCalls = _
    rw [hcalls, hR]
    exact fetch_innerCalls r w ctx u

theorem CachedResolver_Resolve_hit_witness :
    ((warmResolver.Resolve (testWorld innerAdmin) () 1).1 =
        (some (NewStaticProfile 1 "editor" []).toProfile, none) ∧
      (warmResolver.Resolve (testWorld innerAdmin) () 1).2.2.innerCalls = []) ∧
    (((coldResolver.Resolve (testWorld innerEditor) () 1).2.1.Resolve laterWorld () 1).1 =
        (coldResolver.Resolve (testWorld innerEditor) () 1).1) ∧
    (((coldResolver.Resolve (testWorld innerEditor) () 1).2.1.Resolve laterWorld () 1).1 =
        (some (NewStaticProfile 1 "editor" []).toProfile, none) ∧
      ((coldResolver.Resolve (testWorld innerEditor) () 1).2.1.Resolve laterWorld () 1
        ).2.2.innerCalls = [1]) :=
  ⟨⟨((CachedResolver_Resolve_hit warmResolver (testWorld innerAdmin) () 1).1
        ⟨some (NewStaticProfile 1 "editor" []).toProfile, 0 + fiveMinutes⟩ rfl
        (by decide)).1,
      ((CachedResolver_Resolve_hit warmResolver (testWorld innerAdmin) () 1).1
        ⟨some (NewStaticProfile 1 "editor" []).toProfile, 0 + fiveMinutes⟩ rfl
        (by decide)).2.2.2.1⟩,
    ((CachedResolver_Resolve_hit coldResolver (testWorld innerEditor) () 1).2.1
      ⟨some (NewStaticProfile 1 "editor" []).toProfile, 0 + fiveMinutes⟩ laterWorld ()
      rfl rfl (by decide)).2.2.2 rfl,
    ⟨((CachedResolver_Resolve_hit coldResolver (testWorld innerEditor) () 1).2.2
        (some (NewStaticProfile 1 "editor" []).toProfile) innerEditor laterWorld ()
        rfl rfl rfl (by decide)).2.1,
      ((CachedResolver_Resolve_hit coldResolver (testWorld innerEditor) () 1).2.2
        (some (NewStaticProfile 1 "editor" []).toProfile) innerEditor laterWorld ()
        rfl rfl rfl (by decide)).2.2⟩⟩

theorem Resolve_of_absent {σ Ctx U : Type} [DecidableEq U] (r : CachedResolver σ Ctx U)
    (w : World σ U) (ctx : Ctx) (u : U) (habsent : r.cache u = none) :
    r.Resolve w ctx u = r.fetch w ctx u := by
  unfold CachedResolver.Resolve
  rw [habsent]

theorem Resolve_of_expired {σ Ctx U : Type} [DecidableEq U] (r : CachedResolver σ Ctx U)
    (w : World σ U) (ctx : Ctx) (u : U) (e : cacheEntry)
    (hentry : r.cache u = some e) (hexpired : ¬ w.clock 0 < e.expiresAt) :
    r.Resolve w ctx u = r.fetch w.Now.2 ctx u := by
  unfold CachedResolver.Resolve
  rw [hentry]
  simp [World.Now, hexpired]

theorem fetch_frame {σ Ctx U : Type} [DecidableEq U] (r : CachedResolver σ Ctx U)
    (w : World σ U) (ctx : Ctx) (u : U) :
    (∀ v : U, v ≠ u → (r.fetch w ctx u).2.1.cache v = r.cache v) ∧
      (r.fetch w ctx u).2.1.ttl = r.ttl ∧
      (r.fetch w ctx u).2.2.innerState = (r.inner.Resolve w.innerState ctx u).2 := by
  unfold CachedResolver.fetch CachedResolver.callInner
  generalize r.inner.Resolve w.innerState ctx u = res
  rcases res with ⟨⟨profile, err⟩, s'⟩
  cases err with
  | some e => simp
  | none =>
    refine ⟨fun v hv => ?_, rfl, rfl⟩
    simp [World.Now, hv]

theorem fetch_of_error {σ Ctx U : Type} [DecidableEq U] (r : CachedResolver σ Ctx U)
    (w : World σ U) (ctx : Ctx) (u : U) (p : Option Profile) (e : GoError)
    (hinner : (r.inner.Resolve w.innerState ctx u).1 = (p, some e)) :
    (r.fetch w ctx u).1 = (none, some e) ∧ (r.fetch w ctx u).2.1 = r := by
  revert hinner
  unfold CachedResolver.fetch CachedResolver.callInner
  generalize r.inner.Resolve w.innerState ctx u = res
  rcases res with ⟨⟨profile, err⟩, s'⟩
  intro hinner
  cases hinner
  exact ⟨rfl, rfl⟩

/-- C11: when the cache holds no entry for `u`, or one whose `expiresAt` is not
after the clock reading, `Resolve(ctx, u)` calls the inner resolver exactly
once; when that call returns a nil error, `Resolve` returns the profile the
inner resolver returned, stores for `u` an entry with that profile whose
`expiresAt` is the clock reading at the write plus the resolver's `ttl` (which
is the one given to `NewCachedResolver` and is never changed), and leaves the
entry of every other subject as it was. -/
theorem CachedResolver_Resolve_miss {σ Ctx U : Type} [DecidableEq U]
    (r : CachedResolver σ Ctx U) (w : World σ U) (ctx : Ctx) (u : U)
    (hstale : r.cache u = none ∨
      ∃ e : cacheEntry, r.cache u = some e ∧ ¬ w.clock 0 < e.expiresAt) :
    (r.Resolve w ctx u).2.2.innerCalls = w.innerCalls ++ [u] ∧
    (r.Resolve w ctx u).2.2.innerState = (r.inner.Resolve w.innerState ctx u).2 ∧
    (r.Resolve w ctx u).2.1.ttl = r.ttl ∧
    (∀ (inner : ProfileResolver σ Ctx U) (ttl : Duration),
      (NewCachedResolver inner ttl).ttl = ttl) ∧
    (∀ v : U, v ≠ u → (r.Resolve w ctx u).2.1.cache v = r.cache v) ∧
    (∀ (p : Option Profile) (s' : σ),
      r.inner.Resolve w.innerState ctx u = ((p, none), s') →
      (r.Resolve w ctx u).1 = (p, none) ∧
      (r.Resolve w ctx u).2.1.cache u =
        some ⟨p, (match r.cache u with
          | none => w.clock 0
          | some _ => w.clock 1) + r.ttl⟩) := by
  rcases hstale with habsent | ⟨e, hentry, hexpired⟩
  · rw [Resolve_of_absent r w ctx u habsent, habsent]
    have hf := fetch_frame r w ctx u
    refine ⟨fetch_innerCalls r w ctx u, hf.2.2, hf.2.1, fun _ _ => rfl, hf.1, ?_⟩
    intro p s' hinner
    exact fetch_of_success r w ctx u p s' hinner
  · rw [Resolve_of_expired r w ctx u e hentry hexpired, hentry]
    have hf := fetch_frame r w.Now.2 ctx u
    refine ⟨fetch_innerCalls r w.Now.2 ctx u, hf.2.2, hf.2.1, fun _ _ => rfl, hf.1, ?_⟩
    intro p s' hinner
    exact fetch_of_success r w.Now.2 ctx u p s' hinner

theorem CachedResolver_Resolve_miss_witness :
    (coldResolver.Resolve (testWorld innerEditor) () 1).2.2.innerCalls = [] ++ [1] ∧
    (warmResolver.Resolve expiredWorld () 1).1 =
      (some (NewStaticProfile 1 "admin" []).toProfile, none) :=
  ⟨(CachedResolver_Resolve_miss coldResolver (testWorld innerEditor) () 1 (Or.inl rfl)).1,
    ((CachedResolver_Resolve_miss warmResolver expiredWorld () 1
      (Or.inr ⟨⟨some (NewStaticProfile 1 "editor" []).toProfile, 0 + fiveMinutes⟩, rfl,
        by decide⟩)).2.2.2.2.2
      (some (NewStaticProfile 1 "admin" []).toProfile) innerAdmin rfl).1⟩

/-- C12: when the inner resolver returns a non-nil error `e` on a miss or on
an expired entry, `Resolve` returns a nil profile together with `e` and leaves
the cached resolver, and so its cache map, unchanged: no entry is created or
refreshed.  The next `Resolve` for that subject, at a clock reading that is not
earlier than the first one, calls the inner resolver again. -/
theorem CachedResolver_Resolve_error {σ Ctx U : Type} [DecidableEq U]
    (r : CachedResolver σ Ctx U) (w : World σ U) (ctx : Ctx) (u : U)
    (p : Option Profile) (e : GoError)
    (hstale : r.cache u = none ∨
      ∃ e0 : cacheEntry, r.cache u = some e0 ∧ ¬ w.clock 0 < e0.expiresAt)
    (hinner : (r.inner.Resolve w.innerState ctx u).1 = (p, some e)) :
    (r.Resolve w ctx u).1 = (none, some e) ∧
    (r.Resolve w ctx u).2.1 = r ∧
    (r.Resolve w ctx u).2.1.cache = r.cache ∧
    (r.Resolve w ctx u).2.2.innerCalls = w.innerCalls ++ [u] ∧
    (∀ (w' : World σ U) (ctx' : Ctx), w.clock 0 ≤ w'.clock 0 →
      ((r.Resolve w ctx u).2.1.Resolve w' ctx' u).2.2.innerCalls =
        w'.innerCalls ++ [u]) := by
  have hsame : (r.Resolve w ctx u).1 = (none, some e) ∧ (r.Resolve w ctx u).2.1 = r := by
    rcases hstale with habsent | ⟨e0, hentry, hexpired⟩
    · rw [Resolve_of_absent r w ctx u habsent]
      exact fetch_of_error r w ctx u p e hinner
    · rw [Resolve_of_expired r w ctx u e0 hentry hexpired]
      exact fetch_of_error r w.Now.2 ctx u p e hinner
  have hcalls : (r.Resolve w ctx u).2.2.innerCalls = w.innerCalls ++ [u] := by
    rcases hstale with habsent | ⟨e0, hentry, hexpired⟩
    · rw [Resolve_of_absent r w ctx u habsent]
      exact fetch_innerCalls r w ctx u
    · rw [Resolve_of_expired r w ctx u e0 hentry hexpired]
      exact fetch_innerCalls r w.Now.2 ctx u
  refine ⟨hsame.1, hsame.2, by rw [hsame.2], hcalls, ?_⟩
  intro w' ctx' hmono
  rw [hsame.2]
  rcases hstale with habsent | ⟨e0, hentry, hexpired⟩
  · rw [Resolve_of_absent r w' ctx' u habsent]
    exact fetch_innerCalls r w' ctx' u
  · have hexpired' : ¬ w'.clock 0 < e0.expiresAt := by
      intro h
      exact hexpired (lt_of_le_of_lt hmono h)
    rw [Resolve_of_expired r w' ctx' u e0 hentry hexpired']
    exact fetch_innerCalls r w'.Now.2 ctx' u

theorem CachedResolver_Resolve_error_witness :
    (failingCached.Resolve failingWorld () 1).1 =
        (none, some (GoError.other "connection refused")) ∧
      (failingCached.Resolve failingWorld () 1).2.1.cache = failingCached.cache :=
  ⟨(CachedResolver_Resolve_error failingCached failingWorld () 1 none
      (GoError.other "connection refused") (Or.inl rfl) rfl).1,
    (CachedResolver_Resolve_error failingCached failingWorld () 1 none
      (GoError.other "connection refused") (Or.inl rfl) rfl).2.2.1⟩

/-- C13: after `Invalidate(u)` the cache holds no entry for `u` and the entry
of every other subject is unchanged.  So the next `Resolve(ctx, u)` calls the
inner resolver, whatever the expiry of the removed entry was, and returns the
profile the inner resolver returns now, or its error; and another subject whose
entry is still fresh is served from the cache without an inner call. -/
theorem CachedResolver_Invalidate_spec {σ Ctx U : Type} [DecidableEq U]
    (r : CachedResolver σ Ctx U) (w : World σ U) (ctx : Ctx) (u : U) :
    (r.Invalidate u).cache u = none ∧
    (∀ v : U, v ≠ u → (r.Invalidate u).cache v = r.cache v) ∧
    ((r.Invalidate u).Resolve w ctx u).2.2.innerCalls = w.innerCalls ++ [u] ∧
    (∀ (p : Option Profile) (s' : σ),
      r.inner.Resolve w.innerState ctx u = ((p, none), s') →
      ((r.Invalidate u).Resolve w ctx u).1 = (p, none)) ∧
    (∀ (p : Option Profile) (e : GoError),
      (r.inner.Resolve w.innerState ctx u).1 = (p, some e) →
      ((r.Invalidate u).Resolve w ctx u).1 = (none, some e)) ∧
    (∀ (v : U) (e : cacheEntry), v ≠ u → r.cache v = some e → w.clock 0 < e.expiresAt →
      ((r.Invalidate u).Resolve w ctx v).1 = (e.profile, none) ∧
      ((r.Invalidate u).Resolve w ctx v).2.2.innerCalls = w.innerCalls) := by
  have habsent : (r.Invalidate u).cache u = none := by
    simp [CachedResolver.Invalidate]
  have hother : ∀ v : U, v ≠ u → (r.Invalidate u).cache v = r.cache v := by
    intro v hv
    simp [CachedResolver.Invalidate, hv]
  refine ⟨habsent, hother, ?_, ?_, ?_, ?_⟩
  · rw [Resolve_of_absent _ w ctx u habsent]
    exact fetch_innerCalls _ w ctx u
  · intro p s' hinner
    rw [Resolve_of_absent _ w ctx u habsent]
    exact (fetch_of_success (r.Invalidate u) w ctx u p s' hinner).1
  · intro p e hinner
    rw [Resolve_of_absent _ w ctx u habsent]
    exact (fetch_of_error (r.Invalidate u) w ctx u p e hinner).1
  · intro v e hv hentry hfresh
    have h := Resolve_of_fresh (r.Invalidate u) w ctx v e
      ((hother v hv).trans hentry) hfresh
    rw [h]
    exact ⟨rfl, rfl⟩

theorem CachedResolver_Invalidate_spec_witness :
    ((warmResolver.Invalidate 1).Resolve laterWorld () 1).1 =
        (some (NewStaticProfile 1 "admin" []).toProfile, none) ∧
      ((warmTwo.Invalidate 1).Resolve laterTwoWorld () 2).1 =
        (some (NewStaticProfile 2 "viewer" []).toProfile, none) :=
  ⟨(CachedResolver_Invalidate_spec warmResolver laterWorld () 1).2.2.2.1
      (some (NewStaticProfile 1 "admin" []).toProfile) innerAdmin rfl,
    ((CachedResolver_Invalidate_spec warmTwo laterTwoWorld () 1).2.2.2.2.2 2
      ⟨some (NewStaticProfile 2 "viewer" []).toProfile, 1 + fiveMinutes⟩
      (by decide) rfl (by decide)).1⟩

/-- C14: after `InvalidateAll()` the cache holds no entry for any subject.  So
for every subject the next `Resolve` calls the inner resolver, whatever expiry
its entry had, and returns the profile the inner resolver returns now, or its
error. -/
theorem CachedResolver_InvalidateAll_spec {σ Ctx U : Type} [DecidableEq U]
    (r : CachedResolver σ Ctx U) (w : World σ U) (ctx : Ctx) (u : U) :
    r.InvalidateAll.cache u = none ∧
    (r.InvalidateAll.Resolve w ctx u).2.2.innerCalls = w.innerCalls ++ [u] ∧
    (∀ (p : Option Profile) (s' : σ),
      r.inner.Resolve w.innerState ctx u = ((p, none), s') →
      (r.InvalidateAll.Resolve w ctx u).1 = (p, none)) ∧
    (∀ (p : Option Profile) (e : GoError),
      (r.inner.Resolve w.innerState ctx u).1 = (p, some e) →
      (r.InvalidateAll.Resolve w ctx u).1 = (none, some e)) := by
  have habsent : r.InvalidateAll.cache u = none := rfl
  refine ⟨habsent, ?_, ?_, ?_⟩
  · rw [Resolve_of_absent _ w ctx u habsent]
    exact fetch_innerCalls _ w ctx u
  · intro p s' hinner
    rw [Resolve_of_absent _ w ctx u habsent]
    exact (fetch_of_success r.InvalidateAll w ctx u p s' hinner).1
  · intro p e hinner
    rw [Resolve_of_absent _ w ctx u habsent]
    exact (fetch_of_error r.InvalidateAll w ctx u p e hinner).1

theorem CachedResolver_InvalidateAll_spec_witness :
    (warmTwo.InvalidateAll.Resolve laterTwoWorld () 1).1 =
        (some (NewStaticProfile 1 "admin" []).toProfile, none) ∧
      (warmTwo.InvalidateAll.Resolve laterTwoWorld () 2).1 =
        (some (NewStaticProfile 2 "admin" []).toProfile, none) :=
  ⟨(CachedResolver_InvalidateAll_spec warmTwo laterTwoWorld () 1).2.2.1
      (some (NewStaticProfile 1 "admin" []).toProfile) innerTwoAdmin rfl,
    (CachedResolver_InvalidateAll_spec warmTwo laterTwoWorld () 2).2.2.1
      (some (NewStaticProfile 2 "admin" []).toProfile) innerTwoAdmin rfl⟩

/-! ## Theorems: role check, policies and request-gating adapters -/

/-- C15: `HybridGate.CanProfile` is true exactly when the subject is not the
zero value, the resolver returns a non-nil profile with a nil error, and that
profile has the permission `NewPermission(t, a)`; its result, and the state it
leaves, do not depend on the registered policies and equal those of
`HybridGate.Can` with a nil resource. -/
theorem HybridGate_CanProfile_spec {σ Ctx U R : Type} [DecidableEq U] [Zero U]
    (g : HybridGate σ Ctx U R) (s : σ) (ctx : Ctx) (u : U) (a : Action) (t : String) :
    ((g.CanProfile s ctx u a t).1 = true ↔
      u ≠ 0 ∧
      ∃ prof : Profile, (g.resolver.Resolve s ctx u).1 = (some prof, none) ∧
        prof.HasPermission (NewPermission t a) = true) ∧
    (∀ policies : String → Option (Policy Ctx U R),
      (HybridGate.mk g.resolver policies).CanProfile s ctx u a t =
        g.CanProfile s ctx u a t) ∧
    g.CanProfile s ctx u a t = g.Can s ctx u a t none := by
  refine ⟨?_, fun _ => rfl, ?_⟩
  · unfold HybridGate.CanProfile
    by_cases hu : u = 0
    · simp [hu]
    · rw [if_neg hu]
      generalize g.resolver.Resolve s ctx u = res
      rcases res with ⟨⟨profile, err⟩, s'⟩
      cases err <;> cases profile <;> simp [hu]
  · unfold HybridGate.CanProfile HybridGate.Can HybridGate.Authorize
    by_cases hu : u = 0
    · simp [hu]
    · rw [if_neg hu, if_neg hu]
      generalize g.resolver.Resolve s ctx u = res
      rcases res with ⟨⟨profile, err⟩, s'⟩
      cases err with
      | some e => cases profile <;> simp
      | none =>
        cases profile with
        | none => simp
        | some prof => cases hperm : prof.HasPermission (NewPermission t a) <;> simp [hperm]

/-- C16: `OwnershipPolicy.Can` is true for a nil resource; false for a non-nil
resource that does not implement `Ownable`; and for a resource that does, it is
the comparison of `GetUserID()` with the user id.  It does not depend on the
action, nor on the context. -/
theorem OwnershipPolicy_Can_spec {Ctx R : Type} [OwnableAssertion R] (ctx : Ctx)
    (uid : Nat) (a : Action) :
    OwnershipPolicy.Can ctx uid a (none : Option R) = true ∧
    (∀ r : R, OwnableAssertion.asOwnable r = none →
      OwnershipPolicy.Can ctx uid a (some r) = false) ∧
    (∀ (r : R) (o : Ownable), OwnableAssertion.asOwnable r = some o →
      OwnershipPolicy.Can ctx uid a (some r) = decide (o.GetUserID = uid)) ∧
    (∀ (ctx' : Ctx) (a' : Action) (r : Option R),
      OwnershipPolicy.Can ctx' uid a' r = OwnershipPolicy.Can ctx uid a r) ∧
    (∀ r : Option R,
      (NewOwnershipPolicy Ctx R).Can ctx uid a r = OwnershipPolicy.Can ctx uid a r) := by
  refine ⟨rfl, ?_, ?_, fun _ _ _ => rfl, fun _ => rfl⟩
  · intro r h
    simp [OwnershipPolicy.Can, h]
  · intro r o h
    simp [OwnershipPolicy.Can, h]

theorem OwnershipPolicy_Can_spec_witness :
    OwnershipPolicy.Can () 1 ActionView (some (testResource.mockNonOwnable 1)) = false ∧
    OwnershipPolicy.Can () 42 ActionView (some (testResource.mockOwnable 42)) = true ∧
    OwnershipPolicy.Can () 99 ActionView (some (testResource.mockOwnable 42)) = false :=
  ⟨(OwnershipPolicy_Can_spec () 1 ActionView).2.1 (testResource.mockNonOwnable 1) rfl,
    ((OwnershipPolicy_Can_spec () 42 ActionView).2.2.1 (testResource.mockOwnable 42) ⟨42⟩
      rfl).trans (by decide),
    ((OwnershipPolicy_Can_spec () 99 ActionView).2.2.1 (testResource.mockOwnable 42) ⟨42⟩
      rfl).trans (by decide)⟩

/-- C17: `AdminBypassPolicy.Can` is `isAdmin(ctx, uid) || inner.Can(ctx, uid,
a, r)`: an admin is allowed whatever the inner policy says, and a non-admin
gets the inner policy's verdict. -/
theorem AdminBypassPolicy_Can_spec {Ctx R : Type} (inner : Policy Ctx Nat R)
    (isAdmin : Ctx → Nat → Bool) (ctx : Ctx) (uid : Nat) (a : Action) (r : Option R) :
    (NewAdminBypassPolicy inner isAdmin).Can ctx uid a r =
      (isAdmin ctx uid || inner.Can ctx uid a r) ∧
    (isAdmin ctx uid = true → (NewAdminBypassPolicy inner isAdmin).Can ctx uid a r = true) ∧
    (isAdmin ctx uid = false →
      (NewAdminBypassPolicy inner isAdmin).Can ctx uid a r = inner.Can ctx uid a r) ∧
    (NewAdminBypassPolicy inner isAdmin).toPolicy.Can ctx uid a r =
      (NewAdminBypassPolicy inner isAdmin).Can ctx uid a r := by
  unfold AdminBypassPolicy.toPolicy AdminBypassPolicy.Can NewAdminBypassPolicy
  cases h : isAdmin ctx uid <;> simp [h]

theorem AdminBypassPolicy_Can_spec_witness :
    bypassPolicy.Can ⟨none⟩ 1 ActionView (some (testResource.mockOwnable 42)) = true ∧
    bypassPolicy.Can ⟨none⟩ 99 ActionView (some (testResource.mockOwnable 42)) = false :=
  ⟨(AdminBypassPolicy_Can_spec (NewOwnershipPolicy Context testResource) isAdminOne ⟨none⟩ 1
      ActionView (some (testResource.mockOwnable 42))).2.1 rfl,
    ((AdminBypassPolicy_Can_spec (NewOwnershipPolicy Context testResource) isAdminOne ⟨none⟩
      99 ActionView (some (testResource.mockOwnable 42))).2.2.1 rfl).trans (by decide)⟩

/-- C18, the code at the failing input: on a request whose context carries no
subject, the handler of `RequirePermission("product", "view")` answers
`403 Forbidden`, not 401, and does not call the wrapped handler.  For the
subject 7, which has `product:view` only, it calls the wrapped handler, and the
handler of `RequirePermission("product", "delete")` answers `403 Forbidden`. -/
theorem RequirePermission_unauthenticated :
    UserIDFromContext ⟨none⟩ = (0, false) ∧
    (rootZeroGate.RequirePermission "product" ActionView unitWorld ⟨none⟩).1 =
      Served.httpError "Forbidden" 403 ∧
    (rootZeroGate.RequirePermission "product" ActionView unitWorld ⟨none⟩).1 ≠
      Served.httpError "Unauthorized" 401 ∧
    (rootZeroGate.RequirePermission "product" ActionView unitWorld (WithUserID ⟨none⟩ 7)).1 =
      Served.next ∧
    (rootZeroGate.RequirePermission "product" ActionDelete unitWorld
      (WithUserID ⟨none⟩ 7)).1 = Served.httpError "Forbidden" 403 := by
  decide

/-- C19: the handler of `RequireAdmin()` calls the wrapped handler exactly when
the request context carries a subject, the cached resolver returns a non-nil
profile with a nil error for it, and that profile has the permission `"*:*"`.
It answers 401 without calling the wrapped handler when the context carries no
subject, and 403 without calling it in every other case of denial. -/
theorem RequireAdmin_spec {σ R : Type} (ag : AuthGate σ R) (w : World σ Nat)
    (ctx : Context) :
    ((ag.RequireAdmin w ctx).1 = Served.next ↔
      (UserIDFromContext ctx).2 = true ∧
      ∃ prof : Profile,
        (ag.CacheResolver.Resolve w ctx (UserIDFromContext ctx).1).1 = (some prof, none) ∧
        prof.HasPermission "*:*" = true) ∧
    ((UserIDFromContext ctx).2 = false →
      (ag.RequireAdmin w ctx).1 = Served.httpError "Unauthorized" 401) ∧
    ((UserIDFromContext ctx).2 = true → (ag.RequireAdmin w ctx).1 ≠ Served.next →
      (ag.RequireAdmin w ctx).1 = Served.httpError "Forbidden" 403) := by
  unfold AuthGate.RequireAdmin
  rcases hctx : UserIDFromContext ctx with ⟨userID, ok⟩
  cases ok with
  | false => simp [StatusUnauthorized]
  | true =>
    simp only [Bool.not_true, Bool.false_eq_true, if_false]
    generalize ag.CacheResolver.Resolve w ctx userID = res
    rcases res with ⟨⟨profile, err⟩, r', w'⟩
    cases err with
    | some e => cases profile <;> simp [StatusForbidden]
    | none =>
      cases profile with
      | none => simp [StatusForbidden]
      | some prof =>
        cases hperm : prof.HasPermission PermissionSuperAdmin with
        | false =>
          have hperm' : prof.HasPermission "*:*" = false := hperm
          simp [StatusForbidden, hperm, hperm']
        | true =>
          have hperm' : prof.HasPermission "*:*" = true := hperm
          simp [hperm, hperm']

theorem RequireAdmin_spec_witness :
    (rootZeroGate.RequireAdmin unitWorld ⟨none⟩).1 = Served.httpError "Unauthorized" 401 ∧
    (rootZeroGate.RequireAdmin unitWorld (WithUserID ⟨none⟩ 7)).1 =
      Served.httpError "Forbidden" 403 :=
  ⟨(RequireAdmin_spec rootZeroGate unitWorld ⟨none⟩).2.1 rfl,
    (RequireAdmin_spec rootZeroGate unitWorld (WithUserID ⟨none⟩ 7)).2.2 rfl (by decide)⟩

/-- C20, the code at the failing input: when the request context carries the
user id 0 and the resolver returns for user 0 a profile that grants `"*:*"`,
the handler of `RequireAdmin()` calls the wrapped handler; `HybridGate.Authorize`
and the handler of `RequirePermission` deny the same subject on the same
gate. -/
theorem RequireAdmin_zero_subject :
    UserIDFromContext (WithUserID ⟨none⟩ 0) = (0, true) ∧
    (rootZeroGate.RequireAdmin unitWorld (WithUserID ⟨none⟩ 0)).1 = Served.next ∧
    (rootZeroGate.Authorize unitWorld (WithUserID ⟨none⟩ 0) ActionView "product" none).1 =
      some ErrUnauthorized ∧
    (rootZeroGate.RequirePermission "product" ActionView unitWorld
      (WithUserID ⟨none⟩ 0)).1 = Served.httpError "Forbidden" 403 := by
  decide

/-! ## Theorems: parsing and the order of permissions -/

theorem cutFirst_eq_none (sep : Char) (l : List Char) (h : sep ∉ l) :
    cutFirst sep l = none := by
  induction l with
  | nil => rfl
  | cons c cs ih =>
    have hc : c ≠ sep := fun hEq => h (by simp [hEq])
    have hcs : sep ∉ cs := fun hIn => h (by simp [hIn])
    simp [cutFirst, hc, ih hcs]

theorem exists_cut_of_mem (sep : Char) (l : List Char) (h : sep ∈ l) :
    ∃ before after : List Char, l = before ++ sep :: after ∧ sep ∉ before := by
  induction l with
  | nil => cases h
  | cons c cs ih =>
    by_cases hc : c = sep
    · exact ⟨[], cs, by simp [hc], by simp⟩
    · have hcs : sep ∈ cs := by
        rcases List.mem_cons.mp h with h1 | h1
        · exact absurd h1.symm hc
        · exact h1
      rcases ih hcs with ⟨before, after, hl, hb⟩
      refine ⟨c :: before, after, by simp [hl], ?_⟩
      intro hIn
      rcases List.mem_cons.mp hIn with h1 | h1
      · exact hc h1.symm
      · exact hb h1

theorem Parse_of_no_colon (p : Permission) (h : ':' ∉ p.data) :
    Permission.Parse p = ("", "") := by
  unfold Permission.Parse SplitN2
  rw [cutFirst_eq_none ':' p.data h]

theorem Parse_cases (p : Permission) :
    (':' ∉ p.data ∧ Permission.Parse p = ("", "")) ∨
      ∃ (before : String) (after : Action),
        p = NewPermission before after ∧ ':' ∉ before.data ∧
          Permission.Parse p = (before, after) := by
  by_cases h : ':' ∈ p.data
  · right
    rcases exists_cut_of_mem ':' p.data h with ⟨before, after, hl, hb⟩
    have hp : p = NewPermission (String.mk before) (String.mk after) := by
      apply String.ext
      rw [NewPermission_data]
      exact hl
    refine ⟨String.mk before, String.mk after, hp, hb, ?_⟩
    rw [hp]
    exact Parse_NewPermission _ _ hb
  · exact Or.inl ⟨h, Parse_of_no_colon p h⟩

theorem eq_SuperAdmin_of_Parse (p : Permission)
    (h1 : (Permission.Parse p).1 = "*") (h2 : (Permission.Parse p).2 = "*") :
    p = PermissionSuperAdmin := by
  rcases Parse_cases p with ⟨_, hp⟩ | ⟨before, after, hp, _, hparse⟩
  · rw [hp] at h1
    exact absurd h1 (by decide)
  · rw [hparse] at h1 h2
    simp only at h1 h2
    rw [hp, h1, h2]
    rfl

/-- C23: for every resource type `r` that contains no `':'` (the empty string
included) and every action `a` (which may contain `':'`),
`NewPermission(r, a).Parse()` returns `(r, a)`, and `NewPermission(r, a)` is
the string `r + ":" + a`. -/
theorem Parse_undoes_NewPermission (r : String) (a : Action) (hr : ':' ∉ r.data) :
    Permission.Parse (NewPermission r a) = (r, a) ∧ NewPermission r a = r ++ ":" ++ a :=
  ⟨Parse_NewPermission r a hr, rfl⟩

theorem Parse_undoes_NewPermission_witness :
    Permission.Parse (NewPermission "" "a:b") = ("", "a:b") ∧
      NewPermission "" "a:b" = "" ++ ":" ++ "a:b" :=
  Parse_undoes_NewPermission "" "a:b" (by decide)

/-- C24: `Parse` is total; on a string that contains no `':'` (the empty string
included) it returns `("", "")`, and on a string that contains a `':'` it
returns the text before the first `':'` and all the text after it. -/
theorem Parse_spec (p : Permission) :
    (':' ∉ p.data → Permission.Parse p = ("", "")) ∧
    (':' ∈ p.data →
      ∃ (before : String) (after : Action),
        p = before ++ ":" ++ after ∧ ':' ∉ before.data ∧
          Permission.Parse p = (before, after)) ∧
    (∀ (before : String) (after : Action), ':' ∉ before.data →
      p = before ++ ":" ++ after → Permission.Parse p = (before, after)) := by
  refine ⟨Parse_of_no_colon p, ?_, ?_⟩
  · intro h
    rcases Parse_cases p with ⟨hn, _⟩ | ⟨before, after, hp, hb, hparse⟩
    · exact absurd h hn
    · exact ⟨before, after, hp, hb, hparse⟩
  · intro before after hb hp
    rw [hp]
    exact Parse_NewPermission before after hb

theorem Parse_spec_witness :
    Permission.Parse "invalid" = ("", "") ∧ Permission.Parse "" = ("", "") ∧
      Permission.Parse "invoice:view:all" = ("invoice", "view:all") :=
  ⟨(Parse_spec "invalid").1 (by decide), (Parse_spec "").1 (by decide),
    (Parse_spec "invoice:view:all").2.2 "invoice" "view:all" (by decide) (by decide)⟩

/-- C28: `Matches` is reflexive, also on strings without `':'`, and
transitive: if `p.Matches(q)` and `q.Matches(r)` then `p.Matches(r)`. -/
theorem Matches_preorder :
    (∀ p : Permission, Permission.Matches p p = true) ∧
    (∀ p q r : Permission, Permission.Matches p q = true → Permission.Matches q r = true →
      Permission.Matches p r = true) := by
  constructor
  · intro p
    exact (Matches_eq_true_iff p p).mpr (Or.inr (Or.inl rfl))
  · intro p q r hpq hqr
    rw [Matches_eq_true_iff] at hpq hqr ⊢
    rcases hpq with h | h | ⟨hact, hres⟩
    · exact Or.inl h
    · rw [h]
      exact hqr
    · rcases hqr with h' | h' | ⟨hact', hres'⟩
      · left
        apply eq_SuperAdmin_of_Parse p _ hact
        rw [hres, h']
        decide
      · rw [← h']
        exact Or.inr (Or.inr ⟨hact, hres⟩)
      · exact Or.inr (Or.inr ⟨hact, hres.trans hres'⟩)

theorem Matches_preorder_witness :
    Permission.Matches "product:*" "product:view" = true :=
  Matches_preorder.2 "product:*" "product:*" "product:view" (by decide) (by decide)

theorem Matches_SuperAdmin_eq_true_iff (p : Permission) :
    Permission.Matches p PermissionSuperAdmin = true ↔ p = PermissionSuperAdmin := by
  rw [Matches_eq_true_iff]
  constructor
  · rintro (h | h | ⟨hact, hres⟩)
    · exact h
    · exact h
    · apply eq_SuperAdmin_of_Parse p _ hact
      rw [hres]
      decide
  · intro h
    exact Or.inl h

theorem RequireAdmin_of_profile {σ R : Type} (ag : AuthGate σ R) (w : World σ Nat)
    (ctx : Context) (uid : Nat) (prof : Profile) (hctx : ctx.userID = some uid)
    (hres : (ag.CacheResolver.Resolve w ctx uid).1 = (some prof, none)) :
    (ag.RequireAdmin w ctx).1 =
      if prof.HasPermission PermissionSuperAdmin then Served.next
      else Served.httpError "Forbidden" StatusForbidden := by
  have hu : UserIDFromContext ctx = (uid, true) := by
    simp [UserIDFromContext, hctx]
  rcases hfull : ag.CacheResolver.Resolve w ctx uid with ⟨⟨profile, err⟩, r', w'⟩
  rw [hfull] at hres
  cases hres
  unfold AuthGate.RequireAdmin
  cases hperm : prof.HasPermission PermissionSuperAdmin <;> simp [hu, hfull, hperm]

/-- C29: `p.Matches("*:*")` is true exactly when `p` is `"*:*"`.  So a static
profile has `HasPermission("*:*")` exactly when `"*:*"` is among its granted
permissions; `"product:*"` and `"*:view"` do not match `"*:*"`; and the handler
of `RequireAdmin()` answers `403 Forbidden` to a subject whose profile is a
static profile without `"*:*"`. -/
theorem SuperAdmin_only_literal (p : Permission) :
    (Permission.Matches p PermissionSuperAdmin = true ↔ p = "*:*") ∧
    (∀ sp : StaticProfile,
      sp.HasPermission PermissionSuperAdmin = true ↔ "*:*" ∈ sp.permissions) ∧
    (∀ (id : Nat) (name : String) (perms : List Permission),
      (NewStaticProfile id name perms).HasPermission PermissionSuperAdmin = true ↔
        "*:*" ∈ perms) ∧
    Permission.Matches "product:*" PermissionSuperAdmin = false ∧
    Permission.Matches "*:view" PermissionSuperAdmin = false ∧
    (∀ {σ R : Type} (ag : AuthGate σ R) (w : World σ Nat) (ctx : Context) (uid : Nat)
      (sp : StaticProfile), ctx.userID = some uid →
      (ag.CacheResolver.Resolve w ctx uid).1 = (some sp.toProfile, none) →
      "*:*" ∉ sp.permissions →
      (ag.RequireAdmin w ctx).1 = Served.httpError "Forbidden" 403) := by
  have hsp : ∀ sp : StaticProfile,
      sp.HasPermission PermissionSuperAdmin = true ↔ "*:*" ∈ sp.permissions := by
    intro sp
    unfold StaticProfile.HasPermission
    rw [rangeMatches_eq_true_iff]
    constructor
    · rintro ⟨g, hg, hm⟩
      rw [(Matches_SuperAdmin_eq_true_iff g).mp hm] at hg
      exact hg
    · intro h
      exact ⟨PermissionSuperAdmin, h, (Matches_SuperAdmin_eq_true_iff _).mpr rfl⟩
  refine ⟨Matches_SuperAdmin_eq_true_iff p, hsp, ?_, by decide, by decide, ?_⟩
  · intro id name perms
    rw [hsp]
    exact mem_NewStaticProfile id name perms "*:*"
  · intro σ R ag w ctx uid sp hctx hres hnot
    rw [RequireAdmin_of_profile ag w ctx uid sp.toProfile hctx hres]
    have hfalse : sp.toProfile.HasPermission PermissionSuperAdmin = false := by
      cases h : sp.HasPermission PermissionSuperAdmin with
      | false => exact h
      | true => exact absurd ((hsp sp).mp h) hnot
    rw [hfalse]
    rfl

theorem SuperAdmin_only_literal_witness :
    (rootZeroGate.RequireAdmin unitWorld (WithUserID ⟨none⟩ 7)).1 =
      Served.httpError "Forbidden" 403 :=
  (SuperAdmin_only_literal "product:*").2.2.2.2.2 rootZeroGate unitWorld
    (WithUserID ⟨none⟩ 7) 7 (NewStaticProfile 2 "viewer" [NewPermission "product" ActionView])
    rfl rfl (by decide)

theorem rangeRowsMatch_eq (rows : List models.Permission) (q : Permission) :
    rangeRowsMatch rows q =
      rangeMatches (rows.map (fun row => NewPermission row.ResourceType row.Action)) q := by
  induction rows with
  | nil => rfl
  | cons row rest ih => simp [rangeRowsMatch, rangeMatches, ih]

/-- C21: for every list of stored permission rows and every requested
permission `q`, `dbProfileAdapter.HasPermission(q)` equals
`NewStaticProfile(id, name, perms...).HasPermission(q)`, where `perms` are the
`NewPermission(row.ResourceType, Action(row.Action))` of the rows, and both are
true exactly when one of these permissions matches `q`. -/
theorem dbProfileAdapter_HasPermission_spec (a : dbProfileAdapter) (id : Nat)
    (name : String) (q : Permission) :
    a.HasPermission q =
      (NewStaticProfile id name
        (a.profile.Permissions.map
          (fun row => NewPermission row.ResourceType row.Action))).HasPermission q ∧
    (a.HasPermission q = true ↔
      ∃ row : models.Permission, row ∈ a.profile.Permissions ∧
        Permission.Matches (NewPermission row.ResourceType row.Action) q = true) ∧
    a.toProfile.HasPermission q = a.HasPermission q ∧
    a.Permissions =
      a.profile.Permissions.map (fun row => NewPermission row.ResourceType row.Action) := by
  have hiff : a.HasPermission q = true ↔
      ∃ row : models.Permission, row ∈ a.profile.Permissions ∧
        Permission.Matches (NewPermission row.ResourceType row.Action) q = true := by
    unfold dbProfileAdapter.HasPermission
    rw [rangeRowsMatch_eq, rangeMatches_eq_true_iff]
    constructor
    · rintro ⟨g, hg, hm⟩
      rcases List.mem_map.mp hg with ⟨row, hrow, rfl⟩
      exact ⟨row, hrow, hm⟩
    · rintro ⟨row, hrow, hm⟩
      exact ⟨_, List.mem_map.mpr ⟨row, hrow, rfl⟩, hm⟩
  refine ⟨?_, hiff, rfl, rfl⟩
  have hstatic := HasPermission_NewStaticProfile id name
    (a.profile.Permissions.map (fun row => NewPermission row.ResourceType row.Action)) q
  have hboth : a.HasPermission q = true ↔
      (NewStaticProfile id name
        (a.profile.Permissions.map
          (fun row => NewPermission row.ResourceType row.Action))).HasPermission q = true := by
    rw [hiff, hstatic]
    constructor
    · rintro ⟨row, hrow, hm⟩
      exact ⟨_, List.mem_map.mpr ⟨row, hrow, rfl⟩, hm⟩
    · rintro ⟨g, hg, hm⟩
      rcases List.mem_map.mp hg with ⟨row, hrow, rfl⟩
      exact ⟨row, hrow, hm⟩
  cases h1 : a.HasPermission q <;>
    cases h2 : (NewStaticProfile id name
      (a.profile.Permissions.map
        (fun row => NewPermission row.ResourceType row.Action))).HasPermission q <;>
    simp_all

/-- C22: for `Gate` and for `HybridGate`, after `Register(t, p1)` and then
`Register(t, p2)` the policy registered for `t` is `p2` and every `Authorize`
gives what it gives when only `p2` was registered, so `p1` is not consulted;
and `Register(t, p)` leaves the policy of every other resource type `t'` as it
was, so `Authorize` for `t'` gives the same before and after. -/
theorem Register_overwrites_and_frames {σ Ctx U R : Type} [DecidableEq U] [Zero U]
    (g : Gate Ctx U R) (h : HybridGate σ Ctx U R) (t : String)
    (p p1 p2 : Policy Ctx U R) (s : σ) (ctx : Ctx) (u : U) (a : Action) (r : Option R) :
    ((g.Register t p1).Register t p2).policies t = some p2 ∧
    (∀ t' : String, ((g.Register t p1).Register t p2).Authorize ctx u a t' r =
      (g.Register t p2).Authorize ctx u a t' r) ∧
    (∀ t' : String, t' ≠ t →
      (g.Register t p).policies t' = g.policies t' ∧
      (g.Register t p).Authorize ctx u a t' r = g.Authorize ctx u a t' r) ∧
    ((h.Register t p1).Register t p2).policies t = some p2 ∧
    (∀ t' : String, ((h.Register t p1).Register t p2).Authorize s ctx u a t' r =
      (h.Register t p2).Authorize s ctx u a t' r) ∧
    (∀ t' : String, t' ≠ t →
      (h.Register t p).policies t' = h.policies t' ∧
      (h.Register t p).Authorize s ctx u a t' r = h.Authorize s ctx u a t' r) := by
  refine ⟨by simp [Gate.Register], ?_, ?_, by simp [HybridGate.Register], ?_, ?_⟩
  · intro t'
    by_cases ht : t' = t <;> simp [Gate.Register, Gate.Authorize, ht]
  · intro t' ht
    simp [Gate.Register, Gate.Authorize, ht]
  · intro t'
    by_cases ht : t' = t <;> simp [HybridGate.Register, HybridGate.Authorize, ht]
  · intro t' ht
    simp [HybridGate.Register, HybridGate.Authorize, ht]

theorem Register_overwrites_and_frames_witness :
    (((NewGate Unit Nat mockResource).Register "test" (mockPolicy true)).Register "denied"
        (mockPolicy false)).Authorize () 1 ActionCreate "test" none =
      ((NewGate Unit Nat mockResource).Register "test" (mockPolicy true)).Authorize () 1
        ActionCreate "test" none :=
  ((Register_overwrites_and_frames
    ((NewGate Unit Nat mockResource).Register "test" (mockPolicy true)) failingGate "denied"
    (mockPolicy false) (mockPolicy false) (mockPolicy false) () () 1 ActionCreate none).2.2.1
    "test" (by decide)).2

/-! ## Theorems: client address -/

theorem String_append_eq_empty (x y : String) : x ++ y = "" ↔ x = "" ∧ y = "" := by
  constructor
  · intro h
    have hd : x.data ++ y.data = [] := by
      rw [← String.data_append, h]
    rcases List.append_eq_nil.mp hd with ⟨hx, hy⟩
    exact ⟨String.ext hx, String.ext hy⟩
  · rintro ⟨rfl, rfl⟩
    rfl

theorem String_empty_append (x : String) : "" ++ x = x :=
  String.ext (by rw [String.data_append]; rfl)

theorem String_append_empty (x : String) : x ++ "" = x :=
  String.ext (by rw [String.data_append]; simp)

theorem String_append_assoc (x y z : String) : x ++ y ++ z = x ++ (y ++ z) :=
  String.ext (by simp [String.data_append])

/-- C27: `FullAddress()` is the newline-joined list of the non-empty lines
among the address, the postal code and city joined by one space (leaving out an
empty one), and the country; a client whose four fields are empty gives the
empty string. -/
theorem FullAddress_spec (c : models.Client) :
    c.FullAddress = fullAddressLines c ∧
    (c.Address = "" → c.PostalCode = "" → c.City = "" → c.Country = "" →
      c.FullAddress = "") := by
  rcases c with ⟨uid, address, city, postal, country⟩
  constructor
  · by_cases h1 : address = "" <;> by_cases h2 : postal = "" <;>
      by_cases h3 : city = "" <;> by_cases h4 : country = "" <;>
      simp [models.Client.FullAddress, fullAddressLines, String.intercalate,
        String.intercalate.go, h1, h2, h3, h4, String_append_eq_empty,
        String_empty_append, String_append_empty, String_append_assoc]
  · intro h1 h2 h3 h4
    simp only at h1 h2 h3 h4
    subst h1 h2 h3 h4
    rfl

theorem FullAddress_spec_witness :
    fullClient.FullAddress = "123 Main St\n75001 Paris\nFrance" ∧
      (⟨0, "", "", "", ""⟩ : models.Client).FullAddress = "" :=
  ⟨(FullAddress_spec fullClient).1.trans (by decide),
    (FullAddress_spec ⟨0, "", "", "", ""⟩).2 rfl rfl rfl rfl⟩

/-! ## Theorems: invoice totals -/

/-- C26, the code at the failing input: for an item of quantity 1 at unit
price 10 the line amount is 10; with the discount 15, and with the discount
10, `ComputeTotals` leaves the line at 10, where a discount capped at the line
amount, `q*p - min(d, q*p)`, gives 0; with the discount 4 the line is 6. -/
theorem ComputeTotals_discount_not_capped :
    billing.lineHT ⟨1, ⟨10, 0⟩, 15⟩ = 10 ∧
    ((1 : Int) : ℚ) * 10 - min 15 (((1 : Int) : ℚ) * 10) = 0 ∧
    billing.ComputeTotals (some (billing.oneItemInvoice 15)) = (10, 0, 10) ∧
    billing.ComputeTotals (some (billing.oneItemInvoice 10)) = (10, 0, 10) ∧
    billing.ComputeTotals (some (billing.oneItemInvoice 4)) = (6, 0, 6) := by
  refine ⟨?_, ?_, ?_, ?_, ?_⟩ <;>
    norm_num [billing.lineHT, billing.ComputeTotals, billing.oneItemInvoice, billing.addItem]

/-! ## Theorems: the cache over an unchanging inner resolver -/

theorem fetch_transparent {σ Ctx U : Type} [DecidableEq U] (r : CachedResolver σ Ctx U)
    (f : U → Option Profile × Option GoError) (w : World σ U) (ctx : Ctx) (u : U)
    (hdet : ∀ (s : σ) (ctx : Ctx) (u : U), (r.inner.Resolve s ctx u).1 = f u)
    (hwf : ∀ u : U, (f u).2 = none ∨ (f u).1 = none)
    (hinv : ∀ (v : U) (e : cacheEntry), r.cache v = some e → f v = (e.profile, none)) :
    (r.fetch w ctx u).1 = f u ∧ (r.fetch w ctx u).2.1.inner = r.inner ∧
      ∀ (v : U) (e : cacheEntry), (r.fetch w ctx u).2.1.cache v = some e →
        f v = (e.profile, none) := by
  have hd := hdet w.innerState ctx u
  have hw := hwf u
  revert hd
  unfold CachedResolver.fetch CachedResolver.callInner
  generalize r.inner.Resolve w.innerState ctx u = res
  rcases res with ⟨⟨profile, err⟩, s'⟩
  intro hd
  simp only at hd
  cases err with
  | some e =>
    rw [← hd] at hw
    simp only at hw
    rcases hw with hw | hw
    · cases hw
    · refine ⟨?_, rfl, hinv⟩
      rw [← hd, hw]
  | none =>
    refine ⟨hd, rfl, ?_⟩
    intro v e
    simp only [World.Now]
    by_cases hv : v = u
    · simp only [hv, if_true]
      intro he
      cases he
      exact hd.symm
    · simp only [hv, if_false]
      exact hinv v e

theorem Resolve_transparent {σ Ctx U : Type} [DecidableEq U] (r : CachedResolver σ Ctx U)
    (f : U → Option Profile × Option GoError) (w : World σ U) (ctx : Ctx) (u : U)
    (hdet : ∀ (s : σ) (ctx : Ctx) (u : U), (r.inner.Resolve s ctx u).1 = f u)
    (hwf : ∀ u : U, (f u).2 = none ∨ (f u).1 = none)
    (hinv : ∀ (v : U) (e : cacheEntry), r.cache v = some e → f v = (e.profile, none)) :
    (r.Resolve w ctx u).1 = f u ∧ (r.Resolve w ctx u).2.1.inner = r.inner ∧
      ∀ (v : U) (e : cacheEntry), (r.Resolve w ctx u).2.1.cache v = some e →
        f v = (e.profile, none) := by
  cases hc : r.cache u with
  | none =>
    rw [Resolve_of_absent r w ctx u hc]
    exact fetch_transparent r f w ctx u hdet hwf hinv
  | some e0 =>
    by_cases hfresh : w.clock 0 < e0.expiresAt
    · rw [Resolve_of_fresh r w ctx u e0 hc hfresh]
      exact ⟨(hinv u e0 hc).symm, rfl, hinv⟩
    · rw [Resolve_of_expired r w ctx u e0 hc hfresh]
      exact fetch_transparent r f w.Now.2 ctx u hdet hwf hinv

theorem runOps_transparent {σ Ctx U : Type} [DecidableEq U]
    (f : U → Option Profile × Option GoError) (ops : List (CacheOp Ctx U))
    (hwf : ∀ u : U, (f u).2 = none ∨ (f u).1 = none) :
    ∀ (r : CachedResolver σ Ctx U) (w : World σ U),
      (∀ (s : σ) (ctx : Ctx) (u : U), (r.inner.Resolve s ctx u).1 = f u) →
      (∀ (v : U) (e : cacheEntry), r.cache v = some e → f v = (e.profile, none)) →
      (∀ (u : U) (res : Option Profile × Option GoError),
        (u, res) ∈ (runOps r w ops).1 → res = f u) ∧
      (∀ (v : U) (e : cacheEntry), (runOps r w ops).2.1.cache v = some e →
        f v = (e.profile, none)) := by
  induction ops with
  | nil =>
    intro r w _ hinv
    refine ⟨?_, hinv⟩
    intro u res h
    cases h
  | cons op ops ih =>
    intro r w hdet hinv
    cases op with
    | Resolve ctx user =>
      have hstep := Resolve_transparent r f w ctx user hdet hwf hinv
      have hdet' : ∀ (s : σ) (c : Ctx) (u : U),
          ((r.Resolve w ctx user).2.1.inner.Resolve s c u).1 = f u := by
        rw [hstep.2.1]
        exact hdet
      have hrest := ih (r.Resolve w ctx user).2.1 (r.Resolve w ctx user).2.2 hdet' hstep.2.2
      refine ⟨?_, hrest.2⟩
      intro u res hmem
      simp only [runOps, List.mem_cons] at hmem
      rcases hmem with heq | hmem
      · cases heq
        exact hstep.1
      · exact hrest.1 u res hmem
    | Invalidate user =>
      apply ih (r.Invalidate user) w hdet
      intro v e
      unfold CachedResolver.Invalidate
      by_cases hv : v = user
      · simp [hv]
      · simp only [hv, if_false]
        exact hinv v e
    | InvalidateAll =>
      apply ih r.InvalidateAll w hdet
      intro v e h
      cases h

theorem runOps_subjects {σ Ctx U : Type} [DecidableEq U] (ops : List (CacheOp Ctx U)) :
    ∀ (r : CachedResolver σ Ctx U) (w : World σ U),
      (runOps r w ops).1.map Prod.fst =
        ops.filterMap (fun op =>
          match op with
          | CacheOp.Resolve _ user => some user
          | _ => none) := by
  induction ops with
  | nil => intro r w; rfl
  | cons op ops ih =>
    intro r w
    cases op with
    | Resolve ctx user => simp [runOps, ih]
    | Invalidate user => simp [runOps, ih]
    | InvalidateAll => simp [runOps, ih]

/-- C30: when the inner resolver's answer is a fixed function `f` of the
subject, each answer being a profile (nil or not) with a nil error or a nil
profile with an error, then for every ttl, every sequence of `Resolve`,
`Invalidate` and `InvalidateAll` calls on a new cached resolver and every
sequence of clock readings, each `Resolve(ctx, u)` returns `f u`, every
`Resolve` is answered, and every entry under a key `u` holds the profile of
`f u`. -/
theorem CachedResolver_transparent {σ Ctx U : Type} [DecidableEq U]
    (inner : ProfileResolver σ Ctx U) (f : U → Option Profile × Option GoError)
    (ttl : Duration) (w : World σ U) (ops : List (CacheOp Ctx U))
    (hdet : ∀ (s : σ) (ctx : Ctx) (u : U), (inner.Resolve s ctx u).1 = f u)
    (hwf : ∀ u : U, (f u).2 = none ∨ (f u).1 = none) :
    (∀ (u : U) (res : Option Profile × Option GoError),
      (u, res) ∈ (runOps (NewCachedResolver inner ttl) w ops).1 → res = f u) ∧
    (runOps (NewCachedResolver inner ttl) w ops).1.map Prod.fst =
      ops.filterMap (fun op =>
        match op with
        | CacheOp.Resolve _ user => some user
        | _ => none) ∧
    (∀ (u : U) (e : cacheEntry),
      (runOps (NewCachedResolver inner ttl) w ops).2.1.cache u = some e →
        f u = (e.profile, none)) := by
  have h := runOps_transparent f ops hwf (NewCachedResolver inner ttl) w hdet
    (fun v e he => by cases he)
  exact ⟨h.1, runOps_subjects ops _ w, h.2⟩

theorem CachedResolver_transparent_witness :
    (runOps (NewCachedResolver rootZeroResolver fiveMinutes) unitWorld sampleOps).1.map
        Prod.fst = [7, 7, 0, 7, 3] ∧
    ∀ (u : Nat) (res : Option Profile × Option GoError),
      (u, res) ∈ (runOps (NewCachedResolver rootZeroResolver fiveMinutes) unitWorld
        sampleOps).1 → res = rootZeroAnswer u :=
  ⟨(CachedResolver_transparent rootZeroResolver rootZeroAnswer fiveMinutes unitWorld
      sampleOps (fun _ _ _ => rfl)
      (fun u => by
        simp only [rootZeroAnswer, rootZeroResolver]
        split_ifs <;> simp)).2.1,
    (CachedResolver_transparent rootZeroResolver rootZeroAnswer fiveMinutes unitWorld
      sampleOps (fun _ _ _ => rfl)
      (fun u => by
        simp only [rootZeroAnswer, rootZeroResolver]
        split_ifs <;> simp)).1⟩

/-! ## Theorems: the lock discipline of the cached resolver -/

theorem fetchTraced_erase {σ Ctx U : Type} [DecidableEq U] (r : CachedResolver σ Ctx U)
    (w : World σ U) (ctx : Ctx) (u : U) :
    (r.fetchTraced w ctx u).2 = r.fetch w ctx u := by
  unfold CachedResolver.fetchTraced CachedResolver.fetch
  generalize r.callInner w ctx u = res
  rcases res with ⟨⟨profile, err⟩, w1⟩
  cases err <;> rfl

theorem fetchTraced_events {σ Ctx U : Type} [DecidableEq U] (r : CachedResolver σ Ctx U)
    (w : World σ U) (ctx : Ctx) (u : U) :
    (r.fetchTraced w ctx u).1 = [Event.InnerResolve u] ∨
      (r.fetchTraced w ctx u).1 =
        [Event.InnerResolve u, Event.Lock, Event.Now, Event.MapWrite u, Event.Unlock] := by
  unfold CachedResolver.fetchTraced
  generalize r.callInner w ctx u = res
  rcases res with ⟨⟨profile, err⟩, w1⟩
  cases err
  · exact Or.inr rfl
  · exact Or.inl rfl

theorem ResolveTraced_erase {σ Ctx U : Type} [DecidableEq U] (r : CachedResolver σ Ctx U)
    (w : World σ U) (ctx : Ctx) (u : U) :
    (r.ResolveTraced w ctx u).2 = r.Resolve w ctx u := by
  unfold CachedResolver.ResolveTraced CachedResolver.Resolve
  cases r.cache u with
  | none => exact fetchTraced_erase r w ctx u
  | some e =>
    by_cases hfresh : w.clock 0 < e.expiresAt
    · simp [World.Now, hfresh]
    · simp only [World.Now, hfresh, if_false]
      exact fetchTraced_erase r _ ctx u

theorem ResolveTraced_events {σ Ctx U : Type} [DecidableEq U] (r : CachedResolver σ Ctx U)
    (w : World σ U) (ctx : Ctx) (u : U) :
    ∃ clock : List (Event U), (clock = [] ∨ clock = [Event.Now]) ∧
      ((r.ResolveTraced w ctx u).1 =
          [Event.RLock, Event.MapRead u, Event.RUnlock, Event.Now] ∨
        (r.ResolveTraced w ctx u).1 =
          [Event.RLock, Event.MapRead u, Event.RUnlock] ++ clock ++ [Event.InnerResolve u] ∨
        (r.ResolveTraced w ctx u).1 =
          [Event.RLock, Event.MapRead u, Event.RUnlock] ++ clock ++
            [Event.InnerResolve u, Event.Lock, Event.Now, Event.MapWrite u, Event.Unlock]) := by
  unfold CachedResolver.ResolveTraced
  cases r.cache u with
  | none =>
    refine ⟨[], Or.inl rfl, Or.inr ?_⟩
    rcases fetchTraced_events r w ctx u with h | h
    · left
      simp [h]
    · right
      simp [h]
  | some e =>
    by_cases hfresh : w.clock 0 < e.expiresAt
    · exact ⟨[], Or.inl rfl, Or.inl (by simp [World.Now, hfresh])⟩
    · refine ⟨[Event.Now], Or.inr rfl, Or.inr ?_⟩
      simp only [World.Now, hfresh, if_false]
      rcases fetchTraced_events r ⟨fun n => w.clock (n + 1), w.innerState, w.innerCalls⟩
        ctx u with h | h
      · left
        simp [h]
      · right
        simp [h]

theorem run_interleaved_readers {U : Type} (xs ys zs : List (Event U))
    (h : Interleave xs ys zs) :
    ∀ k1 k2 k1' k2' : Nat, readersAfter k1 xs = some k1' → readersAfter k2 ys = some k2' →
      RWMutex.run ⟨k1 + k2, false⟩ zs = some ⟨k1' + k2', false⟩ := by
  induction h with
  | done =>
    intro k1 k2 k1' k2' h1 h2
    simp only [readersAfter, Option.some.injEq] at h1 h2
    simp [RWMutex.run, h1, h2]
  | first x hrest ih =>
    intro k1 k2 k1' k2' h1 h2
    cases x with
    | RLock =>
      have e : k1 + k2 + 1 = k1 + 1 + k2 := by omega
      simp only [readersAfter] at h1
      simp only [RWMutex.run, RWMutex.step, Bool.false_eq_true, if_false, e]
      exact ih (k1 + 1) k2 k1' k2' h1 h2
    | RUnlock =>
      by_cases hk : k1 = 0
      · simp [readersAfter, hk] at h1
      · have e : k1 + k2 - 1 = k1 - 1 + k2 := by omega
        have hne : ¬ k1 + k2 = 0 := by omega
        simp only [readersAfter, hk, if_false] at h1
        simp only [RWMutex.run, RWMutex.step, hne, if_false, e]
        exact ih (k1 - 1) k2 k1' k2' h1 h2
    | Lock => simp [readersAfter] at h1
    | Unlock => simp [readersAfter] at h1
    | MapRead u =>
      simp only [readersAfter] at h1
      simp only [RWMutex.run, RWMutex.step]
      exact ih k1 k2 k1' k2' h1 h2
    | MapWrite u =>
      simp only [readersAfter] at h1
      simp only [RWMutex.run, RWMutex.step]
      exact ih k1 k2 k1' k2' h1 h2
    | MapDelete u =>
      simp only [readersAfter] at h1
      simp only [RWMutex.run, RWMutex.step]
      exact ih k1 k2 k1' k2' h1 h2
    | MapReset =>
      simp only [readersAfter] at h1
      simp only [RWMutex.run, RWMutex.step]
      exact ih k1 k2 k1' k2' h1 h2
    | Now =>
      simp only [readersAfter] at h1
      simp only [RWMutex.run, RWMutex.step]
      exact ih k1 k2 k1' k2' h1 h2
    | InnerResolve u =>
      simp only [readersAfter] at h1
      simp only [RWMutex.run, RWMutex.step]
      exact ih k1 k2 k1' k2' h1 h2
  | second y hrest ih =>
    intro k1 k2 k1' k2' h1 h2
    cases y with
    | RLock =>
      have e : k1 + k2 + 1 = k1 + (k2 + 1) := by omega
      simp only [readersAfter] at h2
      simp only [RWMutex.run, RWMutex.step, Bool.false_eq_true, if_false, e]
      exact ih k1 (k2 + 1) k1' k2' h1 h2
    | RUnlock =>
      by_cases hk : k2 = 0
      · simp [readersAfter, hk] at h2
      · have e : k1 + k2 - 1 = k1 + (k2 - 1) := by omega
        have hne : ¬ k1 + k2 = 0 := by omega
        simp only [readersAfter, hk, if_false] at h2
        simp only [RWMutex.run, RWMutex.step, hne, if_false, e]
        exact ih k1 (k2 - 1) k1' k2' h1 h2
    | Lock => simp [readersAfter] at h2
    | Unlock => simp [readersAfter] at h2
    | MapRead u =>
      simp only [readersAfter] at h2
      simp only [RWMutex.run, RWMutex.step]
      exact ih k1 k2 k1' k2' h1 h2
    | MapWrite u =>
      simp only [readersAfter] at h2
      simp only [RWMutex.run, RWMutex.step]
      exact ih k1 k2 k1' k2' h1 h2
    | MapDelete u =>
      simp only [readersAfter] at h2
      simp only [RWMutex.run, RWMutex.step]
      exact ih k1 k2 k1' k2' h1 h2
    | MapReset =>
      simp only [readersAfter] at h2
      simp only [RWMutex.run, RWMutex.step]
      exact ih k1 k2 k1' k2' h1 h2
    | Now =>
      simp only [readersAfter] at h2
      simp only [RWMutex.run, RWMutex.step]
      exact ih k1 k2 k1' k2' h1 h2
    | InnerResolve u =>
      simp only [readersAfter] at h2
      simp only [RWMutex.run, RWMutex.step]
      exact ih k1 k2 k1' k2' h1 h2

/-- C25: in program order, `CachedResolver.Resolve` releases the shared lock
before it calls the inner resolver and takes the exclusive lock only after that
call has returned: its steps are `RLock`, the map read, `RUnlock`, then (when
an entry was found) the clock read of the freshness test, and then nothing
more on a hit, or the inner call alone when that fails, or the inner call
followed by `Lock`, the map assignment with the clock read of its right-hand
side, and `Unlock`.  So the inner resolver never runs under a lock, and a lock
is held only around one map access; the same holds of `Invalidate` and
`InvalidateAll`.  A cache hit takes the shared lock only, and every schedule of
two concurrent cache hits runs through on a `sync.RWMutex` with no step made
to wait; both may hold the shared lock at once.  Leaving the steps out gives
back `Resolve`, `Invalidate` and `InvalidateAll` as defined above. -/
theorem Resolve_lock_discipline {σ Ctx U : Type} [DecidableEq U]
    (r : CachedResolver σ Ctx U) (w : World σ U) (ctx : Ctx) (u : U) :
    (r.ResolveTraced w ctx u).2 = r.Resolve w ctx u ∧
    lockDiscipline Held.free (r.ResolveTraced w ctx u).1 = true ∧
    (∃ clock : List (Event U), (clock = [] ∨ clock = [Event.Now]) ∧
      ((r.ResolveTraced w ctx u).1 =
          [Event.RLock, Event.MapRead u, Event.RUnlock, Event.Now] ∨
        (r.ResolveTraced w ctx u).1 =
          [Event.RLock, Event.MapRead u, Event.RUnlock] ++ clock ++ [Event.InnerResolve u] ∨
        (r.ResolveTraced w ctx u).1 =
          [Event.RLock, Event.MapRead u, Event.RUnlock] ++ clock ++
            [Event.InnerResolve u, Event.Lock, Event.Now, Event.MapWrite u,
              Event.Unlock])) ∧
    (∀ e : cacheEntry, r.cache u = some e → w.clock 0 < e.expiresAt →
      (r.ResolveTraced w ctx u).1 =
        [Event.RLock, Event.MapRead u, Event.RUnlock, Event.Now]) ∧
    ((r.InvalidateTraced u).2 = r.Invalidate u ∧
      lockDiscipline Held.free (r.InvalidateTraced u).1 = true ∧
      r.InvalidateAllTraced.2 = r.InvalidateAll ∧
      lockDiscipline Held.free r.InvalidateAllTraced.1 = true) ∧
    (∀ (r2 : CachedResolver σ Ctx U) (w2 : World σ U) (ctx2 : Ctx) (u2 : U)
      (e e2 : cacheEntry), r.cache u = some e → w.clock 0 < e.expiresAt →
      r2.cache u2 = some e2 → w2.clock 0 < e2.expiresAt →
      (∀ schedule : List (Event U),
        Interleave (r.ResolveTraced w ctx u).1 (r2.ResolveTraced w2 ctx2 u2).1 schedule →
          RWMutex.run ⟨0, false⟩ schedule = some ⟨0, false⟩) ∧
      RWMutex.run ⟨0, false⟩ ([Event.RLock, Event.RLock] : List (Event U)) =
        some ⟨2, false⟩) := by
  have hhit : ∀ (r : CachedResolver σ Ctx U) (w : World σ U) (ctx : Ctx) (u : U)
      (e : cacheEntry), r.cache u = some e → w.clock 0 < e.expiresAt →
      (r.ResolveTraced w ctx u).1 =
        [Event.RLock, Event.MapRead u, Event.RUnlock, Event.Now] := by
    intro r w ctx u e hentry hfresh
    unfold CachedResolver.ResolveTraced
    rw [hentry]
    simp [World.Now, hfresh]
  have hshape := ResolveTraced_events r w ctx u
  refine ⟨ResolveTraced_erase r w ctx u, ?_, hshape, hhit r w ctx u,
    ⟨rfl, rfl, rfl, rfl⟩, ?_⟩
  · rcases hshape with ⟨clock, hclock, h | h | h⟩
    · rw [h]
      rfl
    · rcases hclock with hc | hc <;>
        · rw [h, hc]
          rfl
    · rcases hclock with hc | hc <;>
        · rw [h, hc]
          rfl
  · intro r2 w2 ctx2 u2 e e2 hentry hfresh hentry2 hfresh2
    refine ⟨?_, rfl⟩
    intro schedule hsched
    rw [hhit r w ctx u e hentry hfresh, hhit r2 w2 ctx2 u2 e2 hentry2 hfresh2] at hsched
    exact run_interleaved_readers _ _ _ hsched 0 0 0 0 rfl rfl

theorem Resolve_lock_discipline_witness :
    (warmResolver.ResolveTraced (testWorld innerAdmin) () 1).1 =
        [Event.RLock, Event.MapRead 1, Event.RUnlock, Event.Now] ∧
    RWMutex.run ⟨0, false⟩
        ([Event.RLock, Event.RLock, Event.MapRead 1, Event.MapRead 1, Event.RUnlock,
          Event.RUnlock, Event.Now, Event.Now] : List (Event Nat)) = some ⟨0, false⟩ :=
  ⟨(Resolve_lock_discipline warmResolver (testWorld innerAdmin) () 1).2.2.2.1
      ⟨some (NewStaticProfile 1 "editor" []).toProfile, 0 + fiveMinutes⟩ rfl (by decide),
    ((Resolve_lock_discipline warmResolver (testWorld innerAdmin) () 1).2.2.2.2.2
      warmResolver (testWorld innerAdmin) () 1
      ⟨some (NewStaticProfile 1 "editor" []).toProfile, 0 + fiveMinutes⟩
      ⟨some (NewStaticProfile 1 "editor" []).toProfile, 0 + fiveMinutes⟩
      rfl (by decide) rfl (by decide)).1 _
      (show Interleave [Event.RLock, Event.MapRead 1, Event.RUnlock, Event.Now]
          [Event.RLock, Event.MapRead 1, Event.RUnlock, Event.Now]
          [Event.RLock, Event.RLock, Event.MapRead 1, Event.MapRead 1, Event.RUnlock,
            Event.RUnlock, Event.Now, Event.Now] from
        Interleave.first _ (Interleave.second _ (Interleave.first _ (Interleave.second _
          (Interleave.first _ (Interleave.second _ (Interleave.first _
            (Interleave.second _ Interleave.done))))))))⟩

end GoGate
